import Mathlib

/-!
Video integrity: registration and verification.

A shallow embedding of the register and verify entry points of the repository
(`server.js`, `process-video.js`, `test-video.js`, `verify.js`,
`verify-video.js`, `verify-local.js`) together with the SHA-256 digest they
all compute through `crypto.createHash("sha256").update(buf).digest("hex")`.

External collaborators (the Supabase bucket, the ledger contract, the local
file system and the UUID generator) answer through an `Env` of responses; every
entry point returns its caller-facing result together with the list of
collaborator calls it made, in order.
-/

namespace VideoIntegrity

/-- One octet of file content. -/
abbrev Byte := Fin 256

/-- The content of a file or of a stored blob (a Node `Buffer`). -/
abbrev Bytes := List Byte

/-! ## SHA-256 (FIPS 180-4), as computed by `crypto.createHash("sha256")` -/

namespace Sha256

/-- Addition of 32-bit words. -/
def add32 (a b : Nat) : Nat := (a + b) % 4294967296

/-- Rotate a 32-bit word right by `n` bits. -/
def rotr (x n : Nat) : Nat := ((x >>> n) ||| (x <<< (32 - n))) % 4294967296

def ch (x y z : Nat) : Nat := (x &&& y) ^^^ ((x ^^^ 4294967295) &&& z)

def maj (x y z : Nat) : Nat := (x &&& y) ^^^ (x &&& z) ^^^ (y &&& z)

def bigSigma0 (x : Nat) : Nat := rotr x 2 ^^^ rotr x 13 ^^^ rotr x 22

def bigSigma1 (x : Nat) : Nat := rotr x 6 ^^^ rotr x 11 ^^^ rotr x 25

def smallSigma0 (x : Nat) : Nat := rotr x 7 ^^^ rotr x 18 ^^^ (x >>> 3)

def smallSigma1 (x : Nat) : Nat := rotr x 17 ^^^ rotr x 19 ^^^ (x >>> 10)

/-- The sixty-four round constants. -/
def K : List Nat :=
  [0x428a2f98, 0x71374491, 0xb5c0fbcf, 0xe9b5dba5, 0x3956c25b, 0x59f111f1, 0x923f82a4, 0xab1c5ed5,
   0xd807aa98, 0x12835b01, 0x243185be, 0x550c7dc3, 0x72be5d74, 0x80deb1fe, 0x9bdc06a7, 0xc19bf174,
   0xe49b69c1, 0xefbe4786, 0x0fc19dc6, 0x240ca1cc, 0x2de92c6f, 0x4a7484aa, 0x5cb0a9dc, 0x76f988da,
   0x983e5152, 0xa831c66d, 0xb00327c8, 0xbf597fc7, 0xc6e00bf3, 0xd5a79147, 0x06ca6351, 0x14292967,
   0x27b70a85, 0x2e1b2138, 0x4d2c6dfc, 0x53380d13, 0x650a7354, 0x766a0abb, 0x81c2c92e, 0x92722c85,
   0xa2bfe8a1, 0xa81a664b, 0xc24b8b70, 0xc76c51a3, 0xd192e819, 0xd6990624, 0xf40e3585, 0x106aa070,
   0x19a4c116, 0x1e376c08, 0x2748774c, 0x34b0bcb5, 0x391c0cb3, 0x4ed8aa4a, 0x5b9cca4f, 0x682e6ff3,
   0x748f82ee, 0x78a5636f, 0x84c87814, 0x8cc70208, 0x90befffa, 0xa4506ceb, 0xbef9a3f7, 0xc67178f2]

/-- The eight working variables `a … h`, also the chaining value. -/
structure State where
  a : Nat
  b : Nat
  c : Nat
  d : Nat
  e : Nat
  f : Nat
  g : Nat
  h : Nat
  deriving DecidableEq, Repr

/-- The initial chaining value. -/
def H0 : State :=
  ⟨0x6a09e667, 0xbb67ae85, 0x3c6ef372, 0xa54ff53a, 0x510e527f, 0x9b05688c, 0x1f83d9ab, 0x5be0cd19⟩

/-- The message followed by the bit `1`, zero bits up to 56 modulo 64 octets,
and the bit length as a 64-bit big-endian integer. -/
def pad (m : Bytes) : List Nat :=
  let len := m.length
  let bits := (8 * len) % 18446744073709551616
  m.map Fin.val ++ [128] ++ List.replicate ((119 - len % 64) % 64) 0
    ++ (List.range 8).map (fun i => (bits >>> (8 * (7 - i))) % 256)

/-- Cut a list of octets into `n` blocks of 64. -/
def blocks : Nat → List Nat → List (List Nat)
  | 0, _ => []
  | n + 1, l => l.take 64 :: blocks n (l.drop 64)

/-- The sixteen big-endian words of a 64-octet block. -/
def words (block : List Nat) : List Nat :=
  (List.range 16).map (fun i =>
    block.getD (4 * i) 0 * 16777216 + block.getD (4 * i + 1) 0 * 65536
      + block.getD (4 * i + 2) 0 * 256 + block.getD (4 * i + 3) 0)

/-- Extend the message schedule by `n` further words. -/
def extend : Nat → List Nat → List Nat
  | 0, w => w
  | n + 1, w =>
    let t := w.length
    extend n (w ++ [add32 (add32 (add32 (smallSigma1 (w.getD (t - 2) 0)) (w.getD (t - 7) 0))
      (smallSigma0 (w.getD (t - 15) 0))) (w.getD (t - 16) 0)])

/-- The sixty-four word message schedule of a block. -/
def schedule (block : List Nat) : List Nat := extend 48 (words block)

/-- One round of the compression function with round constant `k` and schedule word `w`. -/
def round (s : State) (k w : Nat) : State :=
  let t1 := add32 (add32 (add32 (add32 s.h (bigSigma1 s.e)) (ch s.e s.f s.g)) k) w
  let t2 := add32 (bigSigma0 s.a) (maj s.a s.b s.c)
  ⟨add32 t1 t2, s.a, s.b, s.c, add32 s.d t1, s.e, s.f, s.g⟩

/-- Run the rounds over the paired round constants and schedule words. -/
def rounds (s : State) : List (Nat × Nat) → State
  | [] => s
  | (k, w) :: rest => rounds (round s k w) rest

/-- Compress one block into the chaining value. -/
def compress (hv : State) (block : List Nat) : State :=
  let s := rounds hv (K.zip (schedule block))
  ⟨add32 hv.a s.a, add32 hv.b s.b, add32 hv.c s.c, add32 hv.d s.d,
   add32 hv.e s.e, add32 hv.f s.f, add32 hv.g s.g, add32 hv.h s.h⟩

/-- The digest as eight 32-bit words. -/
def digest (m : Bytes) : State :=
  let p := pad m
  (blocks (p.length / 64) p).foldl compress H0

/-- A lower-case hexadecimal digit. -/
def hexDigit (n : Nat) : Char :=
  "0123456789abcdef".toList.getD (n % 16) '0'

/-- The eight lower-case hexadecimal digits of a 32-bit word. -/
def hexWord (w : Nat) : List Char :=
  (List.range 8).map (fun i => hexDigit (w >>> (4 * (7 - i))))

/-- The `digest("hex")` encoding of a chaining value. -/
def hex (s : State) : String :=
  String.mk (hexWord s.a ++ hexWord s.b ++ hexWord s.c ++ hexWord s.d
    ++ hexWord s.e ++ hexWord s.f ++ hexWord s.g ++ hexWord s.h)

end Sha256

/-- The hash every entry point computes:
`crypto.createHash("sha256").update(buffer).digest("hex")`. -/
def sha256hex (buffer : Bytes) : String := Sha256.hex (Sha256.digest buffer)

/-! ## Values exchanged with the callers and the collaborators -/

/-- A value of a JSON response body. -/
inductive JVal where
  | str (s : String)
  | bool (b : Bool)
  deriving DecidableEq, Repr

/-- A JSON object: its fields in the order the handler writes them. -/
abbrev Json := List (String × JVal)

/-- The value of field `k` of a JSON object, if the object has that field. -/
def Json.get (o : Json) (k : String) : Option JVal := List.lookup k o

/-- What an express handler sends: `res.status(code).json(body)`;
`res.json(body)` alone sends status 200. -/
structure Response where
  status : Nat
  body : Json
  deriving DecidableEq, Repr

/-- The `{ data, error }` pair returned by the Supabase storage client;
`error` holds `error.message`. -/
structure StorageResult (α : Type) where
  data : Option α
  error : Option String
  deriving DecidableEq, Repr

/-- The `data` of a successful `upload`. -/
structure UploadData where
  path : String
  deriving DecidableEq, Repr

/-- The transaction object returned by `contract.registerVideo`. -/
structure Tx where
  hash : String
  deriving DecidableEq, Repr

/-- The `req.file` that multer attaches to an upload request. -/
structure UploadedFile where
  path : String
  deriving DecidableEq, Repr

/-- A call made to the file system, the content store or the ledger contract. -/
inductive Call where
  | readFileSync (path : String)
  | unlinkSync (path : String)
  | listBuckets
  | createBucket (name : String)
  | upload (key : String) (body : Bytes) (contentType : String)
  | download (key : String)
  | registerVideo (videoId hash : String)
  | wait (tx : Tx)
  | getVideo (videoId : String)
  deriving DecidableEq, Repr

/-- The answers of the collaborators during one run. A thrown error is
`Except.error` carrying `err.message`. -/
structure Env where
  /-- `crypto.randomUUID()` -/
  randomUUID : String
  /-- `fs.existsSync(path)` -/
  existsSync : String → Bool
  /-- `fs.readFileSync(path)` -/
  readFileSync : String → Except String Bytes
  /-- `fs.unlinkSync(path)` -/
  unlinkSync : String → Except String Unit
  /-- The `data` of `supabase.storage.listBuckets()`: the bucket names, or `null`. -/
  listBuckets : Option (List String)
  /-- The `error` of `supabase.storage.createBucket(name, …)`. -/
  createBucket : String → Option String
  /-- `supabase.storage.from("videos").upload(key, body, { contentType })` -/
  upload : String → Bytes → String → StorageResult UploadData
  /-- `supabase.storage.from("videos").download(key)`, the blob read through `arrayBuffer()` -/
  download : String → StorageResult Bytes
  /-- `contract.registerVideo(videoId, hash)` -/
  registerVideo : String → String → Except String Tx
  /-- `tx.wait()` -/
  wait : Tx → Except String Unit
  /-- `contract.getVideo(videoId)`: the pair `[storedHash, timestamp]` -/
  getVideo : String → Except String (String × Nat)

/-- The result of running a handler: what the caller receives and the calls made. -/
structure Run (α : Type) where
  result : α
  calls : List Call
  deriving DecidableEq, Repr

/-- How a command-line script ends: `process.exit(code)`, or its main function returns. -/
inductive Outcome (α : Type) where
  | exit (code : Nat)
  | returned (value : α)
  deriving DecidableEq, Repr

/-- The exit status the shell sees; a script whose function returns ends with status 0. -/
def Outcome.exitStatus {α : Type} : Outcome α → Nat
  | .exit code => code
  | .returned _ => 0

/-- A run of a command-line script: how it ends, the lines written with
`console.error` whose text is a plain string (the dump of the error object and of
its stack is left out, as is the progress output on `console.log`), and the calls made. -/
structure CliRun (α : Type) where
  outcome : Outcome α
  stderr : List String
  calls : List Call
  deriving DecidableEq, Repr

/-- The state of the ledger after the calls of a run, for any ledger state type and any
effect `write` of `contract.registerVideo`; no other call reaches the contract's storage. -/
def ledgerAfter {L : Type} (write : L → String → String → L) (l : L) : List Call → L
  | [] => l
  | .registerVideo videoId hash :: rest => ledgerAfter write (write l videoId hash) rest
  | _ :: rest => ledgerAfter write l rest

/-- `String.prototype.includes`. -/
def includes (s pat : String) : Bool :=
  s.toList.tails.any (fun t => pat.toList.isPrefixOf t)

/-- `msg || "Unknown error"` for an optional error's message: the empty string is falsy. -/
def messageOr (error : Option String) (dflt : String) : String :=
  match error with
  | some m => if m = "" then dflt else m
  | none => dflt


/-! ## `server.js` -/

namespace Server

/-- The handler of `POST /upload`: upload video → hash → Supabase → blockchain. -/
def postUpload (env : Env) (file : Option UploadedFile) : Run Response :=
  match file with
  | none => ⟨⟨400, [("error", .str "No video file provided")]⟩, []⟩
  | some f =>
    let videoId := env.randomUUID
    match env.readFileSync f.path with
    | .error msg => ⟨⟨500, [("error", .str msg)]⟩, [.readFileSync f.path]⟩
    | .ok fileBuffer =>
      let hash := sha256hex fileBuffer
      match (env.upload (videoId ++ ".mp4") fileBuffer "video/mp4").error with
      | some _ =>
        ⟨⟨500, [("error", .str "Error uploading video to Supabase")]⟩,
          [.readFileSync f.path, .upload (videoId ++ ".mp4") fileBuffer "video/mp4"]⟩
      | none =>
        match env.registerVideo videoId hash with
        | .error msg =>
          ⟨⟨500, [("error", .str msg)]⟩,
            [.readFileSync f.path, .upload (videoId ++ ".mp4") fileBuffer "video/mp4",
             .registerVideo videoId hash]⟩
        | .ok tx =>
          match env.wait tx with
          | .error msg =>
            ⟨⟨500, [("error", .str msg)]⟩,
              [.readFileSync f.path, .upload (videoId ++ ".mp4") fileBuffer "video/mp4",
               .registerVideo videoId hash, .wait tx]⟩
          | .ok _ =>
            match env.unlinkSync f.path with
            | .error msg =>
              ⟨⟨500, [("error", .str msg)]⟩,
                [.readFileSync f.path, .upload (videoId ++ ".mp4") fileBuffer "video/mp4",
                 .registerVideo videoId hash, .wait tx, .unlinkSync f.path]⟩
            | .ok _ =>
              ⟨⟨200, [("success", .bool true), ("videoId", .str videoId), ("hash", .str hash),
                  ("txHash", .str tx.hash)]⟩,
                [.readFileSync f.path, .upload (videoId ++ ".mp4") fileBuffer "video/mp4",
                 .registerVideo videoId hash, .wait tx, .unlinkSync f.path]⟩

/-- The handler of `GET /verify/:videoId`: verify video (anti-tampering). -/
def getVerify (env : Env) (videoId : String) : Run Response :=
  let dl := env.download (videoId ++ ".mp4")
  match dl.error, dl.data with
  | none, some buffer =>
    let newHash := sha256hex buffer
    match env.getVideo videoId with
    | .error msg =>
      ⟨⟨404, [("error", .str "Video hash not found on blockchain"), ("videoId", .str videoId),
          ("details", .str msg)]⟩,
        [.download (videoId ++ ".mp4"), .getVideo videoId]⟩
    | .ok (storedHash, timestamp) =>
      let isValid : Bool := newHash = storedHash
      ⟨⟨200, [("valid", .bool isValid), ("tampered", .bool (!isValid)),
          ("message", .str (if isValid
            then "✅ Video is authentic and has not been tampered with"
            else "⚠️ WARNING: Video has been tampered with!")),
          ("storedHash", .str storedHash), ("currentHash", .str newHash),
          ("timestamp", .str (toString timestamp)), ("videoId", .str videoId)]⟩,
        [.download (videoId ++ ".mp4"), .getVideo videoId]⟩
  | _, _ =>
    ⟨⟨404, [("error", .str "Video not found in database"), ("videoId", .str videoId)]⟩,
      [.download (videoId ++ ".mp4")]⟩

end Server

/-! ## `verify.js` -/

namespace VerifyJs

/-- The function `verifyVideo(videoId)` of `verify.js`; it never returns. -/
def verifyVideo (env : Env) (videoId : String) : CliRun Empty :=
  let dl := env.download (videoId ++ ".mp4")
  match dl.error, dl.data with
  | none, some buffer =>
    let currentHash := sha256hex buffer
    match env.getVideo videoId with
    | .error msg =>
      ⟨.exit 1, ["❌ Error: Video hash not found on blockchain", "   " ++ msg],
        [.download (videoId ++ ".mp4"), .getVideo videoId]⟩
    | .ok (storedHash, _) =>
      let isValid : Bool := currentHash = storedHash
      ⟨.exit (if isValid then 0 else 1), [], [.download (videoId ++ ".mp4"), .getVideo videoId]⟩
  | _, _ =>
    ⟨.exit 1, ["❌ Error: Video not found in database", "   Video ID: " ++ videoId],
      [.download (videoId ++ ".mp4")]⟩

/-- The script `verify.js` run with `process.argv[2]` (absent, or a string). -/
def script (env : Env) (arg : Option String) : CliRun Empty :=
  match arg with
  | none => ⟨.exit 1, ["❌ Error: Please provide a video ID"], []⟩
  | some videoId =>
    if videoId = "" then ⟨.exit 1, ["❌ Error: Please provide a video ID"], []⟩
    else verifyVideo env videoId

end VerifyJs

/-! ## `verify-video.js` -/

/-- The object `verifyVideo()` of `verify-video.js` returns. -/
structure VerifyResult where
  valid : Bool
  tampered : Bool
  videoId : String
  currentHash : String
  storedHash : String
  timestamp : String
  deriving DecidableEq, Repr

namespace VerifyVideoJs

/-- The function `verifyVideo()` of `verify-video.js`, with the module-level `videoId`. -/
def verifyVideo (env : Env) (videoId : String) : CliRun VerifyResult :=
  let dl := env.download (videoId ++ ".mp4")
  match dl.error, dl.data with
  | none, some buffer =>
    let currentHash := sha256hex buffer
    match env.getVideo videoId with
    | .error msg =>
      ⟨.exit 1, ["❌ Error: Video hash not found on blockchain", "   " ++ msg],
        [.download (videoId ++ ".mp4"), .getVideo videoId]⟩
    | .ok (storedHash, timestamp) =>
      let isValid : Bool := currentHash = storedHash
      ⟨.returned ⟨isValid, !isValid, videoId, currentHash, storedHash, toString timestamp⟩, [],
        [.download (videoId ++ ".mp4"), .getVideo videoId]⟩
  | _, _ =>
    ⟨.exit 1, ["❌ Error: Video not found in database", "   " ++ messageOr dl.error "Unknown error"],
      [.download (videoId ++ ".mp4")]⟩

/-- The script `verify-video.js` run with `process.argv[2]`. -/
def script (env : Env) (arg : Option String) : CliRun VerifyResult :=
  match arg with
  | none => ⟨.exit 1, ["❌ Error: Please provide a video ID"], []⟩
  | some videoId =>
    if videoId = "" then ⟨.exit 1, ["❌ Error: Please provide a video ID"], []⟩
    else verifyVideo env videoId

end VerifyVideoJs

/-! ## `verify-local.js` -/

namespace VerifyLocalJs

/-- The function `verifyLocalVideo(filePath, videoId)`; it never returns. -/
def verifyLocalVideo (env : Env) (filePath videoId : String) : CliRun Empty :=
  match env.readFileSync filePath with
  | .error msg => ⟨.exit 1, ["❌ Error during verification: " ++ msg], [.readFileSync filePath]⟩
  | .ok fileBuffer =>
    let currentHash := sha256hex fileBuffer
    match env.getVideo videoId with
    | .error msg =>
      ⟨.exit 1, ["❌ Error: Video hash not found on blockchain", "   " ++ msg],
        [.readFileSync filePath, .getVideo videoId]⟩
    | .ok (storedHash, _) =>
      let isValid : Bool := currentHash = storedHash
      ⟨.exit (if isValid then 0 else 1), [], [.readFileSync filePath, .getVideo videoId]⟩

/-- The script `verify-local.js` run with `process.argv[2]` and `process.argv[3]`. -/
def script (env : Env) (pathArg idArg : Option String) : CliRun Empty :=
  match pathArg, idArg with
  | some videoPath, some videoId =>
    if videoPath = "" ∨ videoId = "" then
      ⟨.exit 1, ["❌ Error: Please provide both video file path and video ID"], []⟩
    else if !env.existsSync videoPath then
      ⟨.exit 1, ["❌ Error: Video file not found: " ++ videoPath], []⟩
    else verifyLocalVideo env videoPath videoId
  | _, _ => ⟨.exit 1, ["❌ Error: Please provide both video file path and video ID"], []⟩

end VerifyLocalJs

/-! ## `process-video.js` -/

/-- The object `processVideo()` returns. -/
structure ProcessResult where
  success : Bool
  videoId : String
  hash : String
  txHash : String
  valid : Bool
  tampered : Bool
  deriving DecidableEq, Repr

namespace ProcessVideoJs

/-- `printError(message)`: the line it writes with `console.error`. -/
def printError (message : String) : String := "❌ " ++ message

/-- The lines the `catch` of `processVideo` writes for an error with message `msg`. -/
def caught (msg : String) : List String := [printError ("Processing failed: " ++ msg)]

/-- Step 2 of `processVideo` up to the upload: check that the bucket `videos` exists and
create it if not. The result is the error thrown, if any, with the lines written to
`console.error` and the calls made. -/
def ensureBucket (env : Env) : Option String × List String × List Call :=
  let bucketExists : Bool :=
    match env.listBuckets with
    | some buckets => buckets.any (fun name => name = "videos")
    | none => false
  if bucketExists then (none, [], [.listBuckets])
  else
    match env.createBucket "videos" with
    | some msg =>
      if !includes msg "already exists" then
        (some msg, [printError ("Failed to create bucket: " ++ msg)],
          [.listBuckets, .createBucket "videos"])
      else (none, [], [.listBuckets, .createBucket "videos"])
    | none => (none, [], [.listBuckets, .createBucket "videos"])

/-- The function `processVideo()` of `process-video.js`, with the module-level `videoPath`. -/
def processVideo (env : Env) (videoPath : String) : CliRun ProcessResult :=
  match env.readFileSync videoPath with
  | .error msg => ⟨.exit 1, caught msg, [.readFileSync videoPath]⟩
  | .ok fileBuffer =>
    let hash := sha256hex fileBuffer
    match ensureBucket env with
    | (some msg, lines, calls) => ⟨.exit 1, lines ++ caught msg, .readFileSync videoPath :: calls⟩
    | (none, _, calls) =>
      let videoId := env.randomUUID
      let up := env.upload (videoId ++ ".mp4") fileBuffer "video/mp4"
      let c2 := .readFileSync videoPath :: calls ++ [.upload (videoId ++ ".mp4") fileBuffer "video/mp4"]
      match up.error, up.data with
      | some msg, _ => ⟨.exit 1, printError ("Failed to upload video: " ++ msg) :: caught msg, c2⟩
      | none, none => ⟨.exit 1, caught "Cannot read properties of null (reading 'path')", c2⟩
      | none, some _ =>
        match env.registerVideo videoId hash with
        | .error msg => ⟨.exit 1, caught msg, c2 ++ [.registerVideo videoId hash]⟩
        | .ok tx =>
          match env.wait tx with
          | .error msg => ⟨.exit 1, caught msg, c2 ++ [.registerVideo videoId hash, .wait tx]⟩
          | .ok _ =>
            let dl := env.download (videoId ++ ".mp4")
            let c4 := c2 ++ [.registerVideo videoId hash, .wait tx, .download (videoId ++ ".mp4")]
            match dl.error, dl.data with
            | none, some buffer =>
              let currentHash := sha256hex buffer
              match env.getVideo videoId with
              | .error msg => ⟨.exit 1, caught msg, c4 ++ [.getVideo videoId]⟩
              | .ok (storedHash, _) =>
                let isValid : Bool := currentHash = storedHash
                ⟨.returned ⟨true, videoId, hash, tx.hash, isValid, !isValid⟩,
                  if isValid then [] else [printError "WARNING: Video has been TAMPERED with!"],
                  c4 ++ [.getVideo videoId]⟩
            | _, _ =>
              ⟨.exit 1,
                printError ("Failed to download video: " ++ messageOr dl.error "Unknown error")
                  :: caught (match dl.error with | some msg => msg | none => "Download failed"),
                c4⟩

/-- The script `process-video.js` run with `process.argv[2]`. -/
def script (env : Env) (arg : Option String) : CliRun ProcessResult :=
  match arg with
  | none => ⟨.exit 1, ["❌ Error: Please provide a video file path"], []⟩
  | some videoPath =>
    if videoPath = "" then ⟨.exit 1, ["❌ Error: Please provide a video file path"], []⟩
    else if !env.existsSync videoPath then
      ⟨.exit 1, ["❌ Error: Video file not found: " ++ videoPath], []⟩
    else processVideo env videoPath

end ProcessVideoJs

/-! ## `test-video.js` -/

namespace TestVideoJs

/-- The lines the outer `catch` of `testVideo` writes for an error with message `msg`. -/
def caught (msg : String) : List String := ["\n❌ Error: " ++ msg]

/-- The function `testVideo(filePath)` of `test-video.js`; it returns nothing. -/
def testVideo (env : Env) (filePath : String) : CliRun Unit :=
  match env.readFileSync filePath with
  | .error msg => ⟨.exit 1, caught msg, [.readFileSync filePath]⟩
  | .ok fileBuffer =>
    let hash := sha256hex fileBuffer
    let videoId := env.randomUUID
    let c2 := [.readFileSync filePath, .upload (videoId ++ ".mp4") fileBuffer "video/mp4"]
    match (env.upload (videoId ++ ".mp4") fileBuffer "video/mp4").error with
    | some msg => ⟨.exit 1, ("   ❌ Upload error: " ++ msg) :: caught msg, c2⟩
    | none =>
      match env.registerVideo videoId hash with
      | .error msg =>
        ⟨.exit 1, ("   ❌ Blockchain error: " ++ msg) :: caught msg, c2 ++ [.registerVideo videoId hash]⟩
      | .ok tx =>
        match env.wait tx with
        | .error msg =>
          ⟨.exit 1, ("   ❌ Blockchain error: " ++ msg) :: caught msg,
            c2 ++ [.registerVideo videoId hash, .wait tx]⟩
        | .ok _ =>
          let dl := env.download (videoId ++ ".mp4")
          let c4 := c2 ++ [.registerVideo videoId hash, .wait tx, .download (videoId ++ ".mp4")]
          match dl.error, dl.data with
          | none, some _ =>
            match env.getVideo videoId with
            | .error msg => ⟨.exit 1, caught msg, c4 ++ [.getVideo videoId]⟩
            | .ok _ => ⟨.returned (), [], c4 ++ [.getVideo videoId]⟩
          | _, _ => ⟨.exit 1, caught "Failed to download video for verification", c4⟩

/-- The script `test-video.js` run with `process.argv[2]`, which defaults to `./video/test.mp4`. -/
def script (env : Env) (arg : Option String) : CliRun Unit :=
  let videoPath :=
    match arg with
    | some p => if p = "" then "./video/test.mp4" else p
    | none => "./video/test.mp4"
  if !env.existsSync videoPath then
    ⟨.exit 1, ["❌ Error: Video file not found: " ++ videoPath], []⟩
  else testVideo env videoPath

end TestVideoJs

/-! ## `calculate-hash.js` -/

namespace CalculateHashJs

/-- The function `calculateHash(filePath)` of `calculate-hash.js`: the hash of the file. -/
def calculateHash (env : Env) (filePath : String) : CliRun String :=
  match env.readFileSync filePath with
  | .error msg => ⟨.exit 1, ["❌ Error calculating hash: " ++ msg], [.readFileSync filePath]⟩
  | .ok fileBuffer => ⟨.returned (sha256hex fileBuffer), [], [.readFileSync filePath]⟩

/-- The script `calculate-hash.js` run with `process.argv[2]`. -/
def script (env : Env) (arg : Option String) : CliRun String :=
  match arg with
  | none => ⟨.exit 1, ["❌ Error: Please provide a video file path"], []⟩
  | some videoPath =>
    if videoPath = "" then ⟨.exit 1, ["❌ Error: Please provide a video file path"], []⟩
    else if !env.existsSync videoPath then
      ⟨.exit 1, ["❌ Error: Video file not found: " ++ videoPath], []⟩
    else calculateHash env videoPath

end CalculateHashJs

/-! ## Effects and outcome classes -/

/-- Whether a call is an operation of the content store (the Supabase storage client). -/
def Call.isStore : Call → Bool
  | .listBuckets => true
  | .createBucket _ => true
  | .upload _ _ _ => true
  | .download _ => true
  | _ => false

/-- Whether a call is an operation of the ledger contract. -/
def Call.isLedger : Call → Bool
  | .registerVideo _ _ => true
  | .wait _ => true
  | .getVideo _ => true
  | _ => false

/-- The state of the content store after the calls of a run, for any store state type and
any effects `put` of `upload` and `create` of `createBucket`; no other call writes to it. -/
def storeAfter {S : Type} (put : S → String → Bytes → String → S) (create : S → String → S)
    (s : S) : List Call → S
  | [] => s
  | .upload key body contentType :: rest =>
    storeAfter put create (put s key body contentType) rest
  | .createBucket name :: rest => storeAfter put create (create s name) rest
  | _ :: rest => storeAfter put create s rest

/-- Whether a run removed the file at `path`: it called `fs.unlinkSync(path)` and the call
returned without throwing. -/
def removed (env : Env) (calls : List Call) (path : String) : Bool :=
  calls.contains (.unlinkSync path)
    && (match env.unlinkSync path with
        | .ok _ => true
        | .error _ => false)

/-- `!arg` for a command-line argument `process.argv[k]`: it is absent or the empty string. -/
def missingArg (arg : Option String) : Bool :=
  match arg with
  | none => true
  | some a => a = ""

/-- The outcome classes of a verification. -/
inductive VerifyClass where
  | contentNotFound
  | ledgerRecordNotFound
  | authentic
  | tampered
  | failure
  deriving DecidableEq, Repr

/-- The outcome class a caller reads off a response of `GET /verify/:videoId`. -/
def Server.outcomeClass (r : Response) : VerifyClass :=
  if r.body.get "error" = some (.str "Video not found in database") then .contentNotFound
  else if r.body.get "error" = some (.str "Video hash not found on blockchain") then
    .ledgerRecordNotFound
  else if r.body.get "valid" = some (.bool true) then .authentic
  else if r.body.get "valid" = some (.bool false) then .tampered
  else .failure

/-- The outcome class a caller reads off a run of a verify script: the verdict of the
result if the script returns one, else the first line on `console.error`, else the exit
status. -/
def CliRun.outcomeClass {α : Type} (valid : α → Bool) (run : CliRun α) : VerifyClass :=
  match run.outcome with
  | .returned r => if valid r then .authentic else .tampered
  | .exit code =>
    if run.stderr.head? = some "❌ Error: Video not found in database" then .contentNotFound
    else if run.stderr.head? = some "❌ Error: Video hash not found on blockchain" then
      .ledgerRecordNotFound
    else if run.stderr = [] ∧ code = 0 then .authentic
    else if run.stderr = [] ∧ code = 1 then .tampered
    else .failure

/-- The lines `verifyVideo` of `verify.js` writes with `console.log` that print a hash. -/
def VerifyJs.hashLog (env : Env) (videoId : String) : List String :=
  let dl := env.download (videoId ++ ".mp4")
  match dl.error, dl.data with
  | none, some buffer =>
    let currentHash := sha256hex buffer
    match env.getVideo videoId with
    | .error _ => ["   Current hash: " ++ currentHash]
    | .ok (storedHash, _) =>
      let isValid : Bool := currentHash = storedHash
      ["   Current hash: " ++ currentHash, "   Stored hash: " ++ storedHash]
        ++ (if isValid then []
            else ["\n   Current hash:  " ++ currentHash, "   Stored hash:   " ++ storedHash])
  | _, _ => []

/-- The lines `verifyLocalVideo` writes with `console.log` that print a hash. -/
def VerifyLocalJs.hashLog (env : Env) (filePath videoId : String) : List String :=
  match env.readFileSync filePath with
  | .error _ => []
  | .ok fileBuffer =>
    let currentHash := sha256hex fileBuffer
    match env.getVideo videoId with
    | .error _ => ["   Current hash: " ++ currentHash]
    | .ok (storedHash, _) =>
      let isValid : Bool := currentHash = storedHash
      ["   Current hash: " ++ currentHash, "   Stored hash: " ++ storedHash]
        ++ (if isValid then []
            else ["\n   Current hash:  " ++ currentHash, "   Stored hash:   " ++ storedHash])

/-! ## Sample runs -/

/-- The three octets of the text `abc`. -/
def abc : Bytes := [97, 98, 99]

/-- The three octets of the text `abd`. -/
def abd : Bytes := [97, 98, 100]

/-- A generated identifier (the one the usage text of `verify-video.js` shows). -/
def sampleId : String := "3293420c-f205-48d1-88be-cefd31fb9019"

/-- A multer temp file. -/
def sampleFile : UploadedFile := ⟨"temp/6f1c2a"⟩

/-- A world in which every collaborator succeeds: the file holds `abc`, the bucket returns
`abc` for every key and the ledger returns the digest of `abc` for every id. -/
def happyEnv : Env where
  randomUUID := sampleId
  existsSync := fun _ => true
  readFileSync := fun _ => .ok abc
  unlinkSync := fun _ => .ok ()
  listBuckets := some ["videos"]
  createBucket := fun _ => none
  upload := fun key _ _ => ⟨some ⟨key⟩, none⟩
  download := fun _ => ⟨some abc, none⟩
  registerVideo := fun _ _ => .ok ⟨"0x5c504ed432cb51138bcf09aa5e8a410dd4a1e204ef84bfed1be16dfba1b22060"⟩
  wait := fun _ => .ok ()
  getVideo := fun _ => .ok ("ba7816bf8f01cfea414140de5dae2223b00361a396177a9cb410ff61f20015ad", 1700000000)

/-- The bucket rejects every upload. -/
def storeDownEnv : Env :=
  { happyEnv with upload := fun _ _ _ => ⟨none, some "new row violates row-level security policy"⟩ }

/-- The contract call reverts. -/
def ledgerDownEnv : Env :=
  { happyEnv with registerVideo := fun _ _ => .error "execution reverted" }

/-- Nothing is stored and nothing is registered. -/
def emptyEnv : Env :=
  { happyEnv with
    download := fun _ => ⟨none, some "Object not found"⟩
    getVideo := fun _ => .error "execution reverted: Video not found" }

/-- The stored blob has been replaced by `abd`. -/
def tamperedEnv : Env :=
  { happyEnv with download := fun _ => ⟨some abd, none⟩ }

/-- The ledger returns the digest of `abc` spelled in upper case. -/
def upperCaseEnv : Env :=
  { happyEnv with
    getVideo := fun _ =>
      .ok ("BA7816BF8F01CFEA414140DE5DAE2223B00361A396177A9CB410FF61F20015AD", 1700000000) }

/-- The bucket no longer returns the blob once it has been registered. -/
def lostBlobEnv : Env :=
  { happyEnv with download := fun _ => ⟨none, some "Object not found"⟩ }

/-- The temp file cannot be removed after the registration went through. -/
def unlinkFailsEnv : Env :=
  { happyEnv with unlinkSync := fun _ => .error "EPERM: operation not permitted, unlink" }

/-- The blob is stored but the ledger has no record for the id. -/
def unregisteredEnv : Env :=
  { happyEnv with getVideo := fun _ => .error "execution reverted: Video not found" }

/-- The local file holds `abd` while the ledger holds the digest of `abc`. -/
def editedFileEnv : Env :=
  { happyEnv with readFileSync := fun _ => .ok abd }

/-- The three octets of the text `ABC`. -/
def ABC : Bytes := [65, 66, 67]

/-- The file to hash holds `ABC`. -/
def upperFileEnv : Env :=
  { happyEnv with readFileSync := fun _ => .ok ABC }

/-- The bucket rejects the upload of this file only (a size or MIME-type limit as
`createBucket` configures); every other upload succeeds. -/
def pickyStoreEnv : Env :=
  { happyEnv with
    upload := fun key body _ =>
      if body = abc then ⟨none, some "The object exceeded the maximum allowed size"⟩
      else ⟨some ⟨key⟩, none⟩ }

/-! ## Properties -/

theorem ledgerAfter_of_no_registerVideo {L : Type} (write : L → String → String → L) (l : L)
    (calls : List Call) (h : ∀ id hash, Call.registerVideo id hash ∉ calls) :
    ledgerAfter write l calls = l := by
  induction calls generalizing l with
  | nil => rfl
  | cons c rest ih =>
    have hrest : ∀ id hash, Call.registerVideo id hash ∉ rest :=
      fun id hash hm => h id hash (List.mem_cons_of_mem _ hm)
    cases c with
    | registerVideo id hash => exact absurd (List.mem_cons_self _ _) (h id hash)
    | _ => exact ih l hrest

theorem ensureBucket_calls_no_registerVideo (env : Env) (id hash : String) :
    Call.registerVideo id hash ∉ (ProcessVideoJs.ensureBucket env).2.2 := by
  unfold ProcessVideoJs.ensureBucket
  dsimp only
  split
  · simp
  · split
    · split <;> simp
    · simp

set_option maxRecDepth 100000 in
theorem sha256hex_abc :
    sha256hex abc = "ba7816bf8f01cfea414140de5dae2223b00361a396177a9cb410ff61f20015ad" := by
  decide

set_option maxRecDepth 100000 in
theorem sha256hex_abd :
    sha256hex abd = "a52d159f262b2c6ddb724a61840befc36eb30c88877a4030b65cbe86298449c9" := by
  decide

/-- C1. Registration gates the ledger write on the store: when the upload of the bytes
read from the file under `<id>.mp4` returns an error, `POST /upload`, `processVideo` and
`testVideo` all end in a failure (a non-200 response without a `success` field, which is
the 500 response "Error uploading video to Supabase" once the temp file was read; exit
status 1 for the scripts), none of them calls `contract.registerVideo`, and so the ledger
is left as it was, whatever the contract's write does. -/
theorem upload_error_never_reaches_ledger {L : Type} (write : L → String → String → L) (l : L)
    (env : Env) (file : Option UploadedFile) (videoPath : String)
    (hrequest : ∀ f buf, file = some f → env.readFileSync f.path = .ok buf →
      (env.upload (env.randomUUID ++ ".mp4") buf "video/mp4").error ≠ none)
    (hscript : ∀ buf, env.readFileSync videoPath = .ok buf →
      (env.upload (env.randomUUID ++ ".mp4") buf "video/mp4").error ≠ none) :
    ((Server.postUpload env file).result.status ≠ 200
      ∧ (Server.postUpload env file).result.body.get "success" = none
      ∧ (∀ f buf, file = some f → env.readFileSync f.path = .ok buf →
          (Server.postUpload env file).result
            = ⟨500, [("error", .str "Error uploading video to Supabase")]⟩)
      ∧ (∀ id hash, Call.registerVideo id hash ∉ (Server.postUpload env file).calls)
      ∧ ledgerAfter write l (Server.postUpload env file).calls = l)
    ∧ ((ProcessVideoJs.processVideo env videoPath).outcome = .exit 1
      ∧ (∀ id hash,
          Call.registerVideo id hash ∉ (ProcessVideoJs.processVideo env videoPath).calls)
      ∧ ledgerAfter write l (ProcessVideoJs.processVideo env videoPath).calls = l)
    ∧ ((TestVideoJs.testVideo env videoPath).outcome = .exit 1
      ∧ (∀ id hash, Call.registerVideo id hash ∉ (TestVideoJs.testVideo env videoPath).calls)
      ∧ ledgerAfter write l (TestVideoJs.testVideo env videoPath).calls = l) := by
  have hserver : (Server.postUpload env file).result.status ≠ 200
      ∧ (Server.postUpload env file).result.body.get "success" = none
      ∧ (∀ f buf, file = some f → env.readFileSync f.path = .ok buf →
          (Server.postUpload env file).result
            = ⟨500, [("error", .str "Error uploading video to Supabase")]⟩)
      ∧ (∀ id hash, Call.registerVideo id hash ∉ (Server.postUpload env file).calls) := by
    cases file with
    | none => simp [Server.postUpload, Json.get, List.lookup]
    | some f =>
      cases hread : env.readFileSync f.path with
      | error msg =>
        refine ⟨?_, ?_, ?_, ?_⟩
        · simp [Server.postUpload, hread]
        · simp [Server.postUpload, hread, Json.get, List.lookup]
        · intro g buf hg hbuf
          cases hg
          rw [hread] at hbuf
          cases hbuf
        · simp [Server.postUpload, hread]
      | ok buf =>
        cases herr : (env.upload (env.randomUUID ++ ".mp4") buf "video/mp4").error with
        | none => exact absurd herr (hrequest f buf rfl hread)
        | some msg => simp [Server.postUpload, hread, herr, Json.get, List.lookup]
  have hprocess : (ProcessVideoJs.processVideo env videoPath).outcome = .exit 1
      ∧ (∀ id hash,
          Call.registerVideo id hash ∉ (ProcessVideoJs.processVideo env videoPath).calls) := by
    cases hread : env.readFileSync videoPath with
    | error msg => simp [ProcessVideoJs.processVideo, hread]
    | ok buf =>
      have hb := ensureBucket_calls_no_registerVideo env
      rcases hbucket : ProcessVideoJs.ensureBucket env with ⟨thrown, lines, calls⟩
      rw [hbucket] at hb
      cases thrown with
      | some msg =>
        simp only [ProcessVideoJs.processVideo, hread, hbucket]
        refine ⟨trivial, fun id hash => ?_⟩
        simpa using hb id hash
      | none =>
        cases herr : (env.upload (env.randomUUID ++ ".mp4") buf "video/mp4").error with
        | none => exact absurd herr (hscript buf hread)
        | some msg =>
          simp only [ProcessVideoJs.processVideo, hread, hbucket, herr]
          refine ⟨trivial, fun id hash => ?_⟩
          simpa using hb id hash
  have htest : (TestVideoJs.testVideo env videoPath).outcome = .exit 1
      ∧ (∀ id hash, Call.registerVideo id hash ∉ (TestVideoJs.testVideo env videoPath).calls) := by
    cases hread : env.readFileSync videoPath with
    | error msg => simp [TestVideoJs.testVideo, hread]
    | ok buf =>
      cases herr : (env.upload (env.randomUUID ++ ".mp4") buf "video/mp4").error with
      | none => exact absurd herr (hscript buf hread)
      | some msg => simp [TestVideoJs.testVideo, hread, herr]
  exact ⟨⟨hserver.1, hserver.2.1, hserver.2.2.1, hserver.2.2.2,
      ledgerAfter_of_no_registerVideo write l _ hserver.2.2.2⟩,
    ⟨hprocess.1, hprocess.2, ledgerAfter_of_no_registerVideo write l _ hprocess.2⟩,
    ⟨htest.1, htest.2, ledgerAfter_of_no_registerVideo write l _ htest.2⟩⟩

theorem upload_error_never_reaches_ledger_witness :
    (pickyStoreEnv.upload (pickyStoreEnv.randomUUID ++ ".mp4") abc "video/mp4").error
        = some "The object exceeded the maximum allowed size"
    ∧ (pickyStoreEnv.upload (pickyStoreEnv.randomUUID ++ ".mp4") abd "video/mp4").error = none
    ∧ (Server.postUpload pickyStoreEnv (some sampleFile)).result
        = ⟨500, [("error", .str "Error uploading video to Supabase")]⟩
    ∧ ledgerAfter (fun (l : List (String × String)) id hash => l ++ [(id, hash)]) []
        (Server.postUpload pickyStoreEnv (some sampleFile)).calls = []
    ∧ (ProcessVideoJs.processVideo pickyStoreEnv "./video/test.mp4").outcome = .exit 1
    ∧ (TestVideoJs.testVideo pickyStoreEnv "./video/test.mp4").outcome = .exit 1 :=
  have hup : ∀ buf, pickyStoreEnv.readFileSync "./video/test.mp4" = .ok buf →
      (pickyStoreEnv.upload (pickyStoreEnv.randomUUID ++ ".mp4") buf "video/mp4").error
        ≠ none := by
    intro buf hbuf
    have hb : buf = abc := by
      simp only [pickyStoreEnv, happyEnv, Except.ok.injEq] at hbuf
      exact hbuf.symm
    subst hb
    simp [pickyStoreEnv]
  have t := upload_error_never_reaches_ledger
    (fun (l : List (String × String)) id hash => l ++ [(id, hash)]) []
    pickyStoreEnv (some sampleFile) "./video/test.mp4" (fun _ buf _ hbuf => hup buf hbuf) hup
  ⟨by simp [pickyStoreEnv], by simp [pickyStoreEnv, abc, abd],
    t.1.2.2.1 sampleFile abc rfl rfl, t.1.2.2.2.2, t.2.1.1, t.2.2.1⟩

/-- C2, as stated, fails: the store upload succeeds, `contract.registerVideo` throws, and
the response of `POST /upload` is the bare `{ error: "execution reverted" }` with status
500; it has no `videoId` field and the generated id occurs nowhere in it. -/
theorem partial_registration_omits_id :
    (ledgerDownEnv.upload (ledgerDownEnv.randomUUID ++ ".mp4") abc "video/mp4").error = none
    ∧ ledgerDownEnv.registerVideo ledgerDownEnv.randomUUID (sha256hex abc)
        = .error "execution reverted"
    ∧ (Server.postUpload ledgerDownEnv (some sampleFile)).result
        = ⟨500, [("error", .str "execution reverted")]⟩
    ∧ (Server.postUpload ledgerDownEnv (some sampleFile)).result.body.get "videoId" = none
    ∧ Call.upload (ledgerDownEnv.randomUUID ++ ".mp4") abc "video/mp4"
        ∈ (Server.postUpload ledgerDownEnv (some sampleFile)).calls := by
  simp [Server.postUpload, ledgerDownEnv, happyEnv, Json.get, List.lookup]

/-- C2, amended: when the store upload succeeds and the ledger write (`registerVideo` or
`tx.wait`) then throws an error with message `msg`, `POST /upload` answers with status 500
and the body `{ error: msg }` alone: no `videoId` field. The blob was uploaded under
`<id>.mp4`, the run ends with the failed contract call, and the temp file is not removed. -/
theorem ledger_failure_response (env : Env) (f : UploadedFile) (buf : Bytes) (msg : String)
    (hread : env.readFileSync f.path = .ok buf)
    (hup : (env.upload (env.randomUUID ++ ".mp4") buf "video/mp4").error = none)
    (hledger : env.registerVideo env.randomUUID (sha256hex buf) = .error msg
      ∨ ∃ tx, env.registerVideo env.randomUUID (sha256hex buf) = .ok tx
          ∧ env.wait tx = .error msg) :
    (Server.postUpload env (some f)).result = ⟨500, [("error", .str msg)]⟩
    ∧ (Server.postUpload env (some f)).result.body.get "videoId" = none
    ∧ ((Server.postUpload env (some f)).calls
          = [.readFileSync f.path, .upload (env.randomUUID ++ ".mp4") buf "video/mp4",
             .registerVideo env.randomUUID (sha256hex buf)]
        ∨ ∃ tx, (Server.postUpload env (some f)).calls
          = [.readFileSync f.path, .upload (env.randomUUID ++ ".mp4") buf "video/mp4",
             .registerVideo env.randomUUID (sha256hex buf), .wait tx]) := by
  rcases hledger with hreg | ⟨tx, hreg, hwait⟩
  · simp [Server.postUpload, hread, hup, hreg, Json.get, List.lookup]
  · simp [Server.postUpload, hread, hup, hreg, hwait, Json.get, List.lookup]

theorem ledger_failure_response_witness :
    ledgerDownEnv.readFileSync sampleFile.path = .ok abc
    ∧ (Server.postUpload ledgerDownEnv (some sampleFile)).result
        = ⟨500, [("error", .str "execution reverted")]⟩ :=
  ⟨rfl, (ledger_failure_response ledgerDownEnv sampleFile abc "execution reverted" rfl rfl
    (Or.inl rfl)).1⟩

/-- C3, as stated, fails: in `processVideo` the store upload and the ledger write both
succeed, the download of step 4 then fails, and the script exits with status 1 without a
success result. -/
theorem both_writes_succeed_without_success_result :
    (lostBlobEnv.upload (lostBlobEnv.randomUUID ++ ".mp4") abc "video/mp4").error = none
    ∧ (∃ tx, lostBlobEnv.registerVideo lostBlobEnv.randomUUID (sha256hex abc) = .ok tx
        ∧ lostBlobEnv.wait tx = .ok ())
    ∧ (ProcessVideoJs.processVideo lostBlobEnv "./video/test.mp4").outcome = .exit 1
    ∧ Call.upload (lostBlobEnv.randomUUID ++ ".mp4") abc "video/mp4"
        ∈ (ProcessVideoJs.processVideo lostBlobEnv "./video/test.mp4").calls
    ∧ Call.registerVideo lostBlobEnv.randomUUID (sha256hex abc)
        ∈ (ProcessVideoJs.processVideo lostBlobEnv "./video/test.mp4").calls := by
  refine ⟨rfl, ⟨_, rfl, rfl⟩, ?_, ?_, ?_⟩ <;>
    simp [ProcessVideoJs.processVideo, ProcessVideoJs.ensureBucket, lostBlobEnv, happyEnv]

/-- C3, amended. `POST /upload`, when the removal of the temp file does not throw, answers
`success: true` if and only if the store upload and the ledger write (`registerVideo` and
`tx.wait`) succeeded, and the response is then `{success, videoId, hash, txHash}` with
status 200, where `videoId` is the generated id used in the store key and passed to the
ledger, `hash` is the SHA-256 hex digest of the file bytes uploaded and is the value passed
to `registerVideo`, and `txHash` is `tx.hash`. `processVideo` returns a result if and only
if the store upload and the ledger write succeeded and, besides, its bucket check before
them and its own download and ledger read after them succeeded; the result is then
`success: true` with the same three fields and with `valid`, `tampered` from the
comparison of step 4, and the run has uploaded the file and registered its hash. -/
theorem register_success_result (env : Env) (file : Option UploadedFile) (videoPath : String)
    (hunlink : ∀ f, file = some f → env.unlinkSync f.path = .ok ()) :
    ((Server.postUpload env file).result.body.get "success" = some (.bool true)
      ↔ ∃ f buf tx, file = some f ∧ env.readFileSync f.path = .ok buf
          ∧ (env.upload (env.randomUUID ++ ".mp4") buf "video/mp4").error = none
          ∧ env.registerVideo env.randomUUID (sha256hex buf) = .ok tx
          ∧ env.wait tx = .ok ())
    ∧ (∀ f buf tx, file = some f → env.readFileSync f.path = .ok buf →
        (env.upload (env.randomUUID ++ ".mp4") buf "video/mp4").error = none →
        env.registerVideo env.randomUUID (sha256hex buf) = .ok tx →
        env.wait tx = .ok () →
        Server.postUpload env file
          = ⟨⟨200, [("success", .bool true), ("videoId", .str env.randomUUID),
                ("hash", .str (sha256hex buf)), ("txHash", .str tx.hash)]⟩,
              [.readFileSync f.path, .upload (env.randomUUID ++ ".mp4") buf "video/mp4",
               .registerVideo env.randomUUID (sha256hex buf), .wait tx, .unlinkSync f.path]⟩)
    ∧ (∀ r, (ProcessVideoJs.processVideo env videoPath).outcome = .returned r
        ↔ ∃ buf d tx b s t, env.readFileSync videoPath = .ok buf
            ∧ (ProcessVideoJs.ensureBucket env).1 = none
            ∧ env.upload (env.randomUUID ++ ".mp4") buf "video/mp4" = ⟨some d, none⟩
            ∧ env.registerVideo env.randomUUID (sha256hex buf) = .ok tx
            ∧ env.wait tx = .ok ()
            ∧ env.download (env.randomUUID ++ ".mp4") = ⟨some b, none⟩
            ∧ env.getVideo env.randomUUID = .ok (s, t)
            ∧ r = ⟨true, env.randomUUID, sha256hex buf, tx.hash, decide (sha256hex b = s),
                !decide (sha256hex b = s)⟩)
    ∧ (∀ r, (ProcessVideoJs.processVideo env videoPath).outcome = .returned r →
        ∃ buf, env.readFileSync videoPath = .ok buf ∧ r.hash = sha256hex buf
          ∧ Call.upload (env.randomUUID ++ ".mp4") buf "video/mp4"
              ∈ (ProcessVideoJs.processVideo env videoPath).calls
          ∧ Call.registerVideo env.randomUUID (sha256hex buf)
              ∈ (ProcessVideoJs.processVideo env videoPath).calls) := by
  refine ⟨?_, ?_, ?_, ?_⟩
  · cases file with
    | none => simp [Server.postUpload, Json.get, List.lookup]
    | some f =>
      have hun := hunlink f rfl
      cases hread : env.readFileSync f.path with
      | error msg => simp [Server.postUpload, hread, Json.get, List.lookup]
      | ok buf =>
        cases hup : (env.upload (env.randomUUID ++ ".mp4") buf "video/mp4").error with
        | some msg => simp [Server.postUpload, hread, hup, Json.get, List.lookup]
        | none =>
          cases hreg : env.registerVideo env.randomUUID (sha256hex buf) with
          | error msg => simp [Server.postUpload, hread, hup, hreg, Json.get, List.lookup]
          | ok tx =>
            cases hwait : env.wait tx with
            | error msg =>
              simp [Server.postUpload, hread, hup, hreg, hwait, Json.get, List.lookup]
            | ok u =>
              simp [Server.postUpload, hread, hup, hreg, hwait, hun, Json.get, List.lookup]
  · intro f buf tx hfile hread hup hreg hwait
    subst hfile
    simp [Server.postUpload, hread, hup, hreg, hwait, hunlink f rfl]
  · intro r
    cases hread : env.readFileSync videoPath with
    | error msg => simp [ProcessVideoJs.processVideo, hread]
    | ok buf =>
      rcases hbucket : ProcessVideoJs.ensureBucket env with ⟨thrown, lines, calls⟩
      cases thrown with
      | some msg => simp [ProcessVideoJs.processVideo, hread, hbucket]
      | none =>
        rcases hup : env.upload (env.randomUUID ++ ".mp4") buf "video/mp4" with ⟨data, error⟩
        cases error with
        | some msg => simp [ProcessVideoJs.processVideo, hread, hbucket, hup]
        | none =>
          cases data with
          | none => simp [ProcessVideoJs.processVideo, hread, hbucket, hup]
          | some d =>
            cases hreg : env.registerVideo env.randomUUID (sha256hex buf) with
            | error msg => simp [ProcessVideoJs.processVideo, hread, hbucket, hup, hreg]
            | ok tx =>
              cases hwait : env.wait tx with
              | error msg =>
                simp [ProcessVideoJs.processVideo, hread, hbucket, hup, hreg, hwait]
              | ok u =>
                rcases hdl : env.download (env.randomUUID ++ ".mp4") with ⟨blob, derr⟩
                cases derr with
                | some msg =>
                  simp [ProcessVideoJs.processVideo, hread, hbucket, hup, hreg, hwait, hdl]
                | none =>
                  cases blob with
                  | none =>
                    simp [ProcessVideoJs.processVideo, hread, hbucket, hup, hreg, hwait, hdl]
                  | some b =>
                    cases hget : env.getVideo env.randomUUID with
                    | error msg =>
                      simp [ProcessVideoJs.processVideo, hread, hbucket, hup, hreg, hwait,
                        hdl, hget]
                    | ok rec =>
                      obtain ⟨s, t⟩ := rec
                      simp [ProcessVideoJs.processVideo, hread, hbucket, hup, hreg, hwait,
                        hdl, hget, eq_comm]
  · intro r hr
    cases hread : env.readFileSync videoPath with
    | error msg => simp [ProcessVideoJs.processVideo, hread] at hr
    | ok buf =>
      rcases hbucket : ProcessVideoJs.ensureBucket env with ⟨thrown, lines, calls⟩
      cases thrown with
      | some msg => simp [ProcessVideoJs.processVideo, hread, hbucket] at hr
      | none =>
        cases hup : (env.upload (env.randomUUID ++ ".mp4") buf "video/mp4").error with
        | some msg => simp [ProcessVideoJs.processVideo, hread, hbucket, hup] at hr
        | none =>
          cases hdata : (env.upload (env.randomUUID ++ ".mp4") buf "video/mp4").data with
          | none => simp [ProcessVideoJs.processVideo, hread, hbucket, hup, hdata] at hr
          | some d =>
            cases hreg : env.registerVideo env.randomUUID (sha256hex buf) with
            | error msg =>
              simp [ProcessVideoJs.processVideo, hread, hbucket, hup, hdata, hreg] at hr
            | ok tx =>
              cases hwait : env.wait tx with
              | error msg =>
                simp [ProcessVideoJs.processVideo, hread, hbucket, hup, hdata, hreg, hwait] at hr
              | ok u =>
                refine ⟨buf, rfl, ?_⟩
                cases hde : (env.download (env.randomUUID ++ ".mp4")).error with
                | some msg =>
                  simp [ProcessVideoJs.processVideo, hread, hbucket, hup, hdata, hreg, hwait,
                    hde] at hr
                | none =>
                  cases hdd : (env.download (env.randomUUID ++ ".mp4")).data with
                  | none =>
                    simp [ProcessVideoJs.processVideo, hread, hbucket, hup, hdata, hreg, hwait,
                      hde, hdd] at hr
                  | some blob =>
                    cases hget : env.getVideo env.randomUUID with
                    | error msg =>
                      simp [ProcessVideoJs.processVideo, hread, hbucket, hup, hdata, hreg,
                        hwait, hde, hdd, hget] at hr
                    | ok rec =>
                      simp only [ProcessVideoJs.processVideo, hread, hbucket, hup, hdata, hreg,
                        hwait, hde, hdd, hget, Outcome.returned.injEq] at hr
                      subst hr
                      simp [ProcessVideoJs.processVideo, hread, hbucket, hup, hdata, hreg,
                        hwait, hde, hdd, hget]

theorem register_success_result_witness :
    (∀ f, some sampleFile = some f → happyEnv.unlinkSync f.path = .ok ())
    ∧ Server.postUpload happyEnv (some sampleFile)
      = ⟨⟨200, [("success", .bool true), ("videoId", .str sampleId),
            ("hash", .str (sha256hex abc)),
            ("txHash", .str "0x5c504ed432cb51138bcf09aa5e8a410dd4a1e204ef84bfed1be16dfba1b22060")]⟩,
          [.readFileSync "temp/6f1c2a", .upload (sampleId ++ ".mp4") abc "video/mp4",
           .registerVideo sampleId (sha256hex abc),
           .wait ⟨"0x5c504ed432cb51138bcf09aa5e8a410dd4a1e204ef84bfed1be16dfba1b22060"⟩,
           .unlinkSync "temp/6f1c2a"]⟩
    ∧ (ProcessVideoJs.processVideo happyEnv "./video/test.mp4").outcome
      = .returned ⟨true, sampleId, sha256hex abc,
          "0x5c504ed432cb51138bcf09aa5e8a410dd4a1e204ef84bfed1be16dfba1b22060",
          decide (sha256hex abc
            = "ba7816bf8f01cfea414140de5dae2223b00361a396177a9cb410ff61f20015ad"),
          !decide (sha256hex abc
            = "ba7816bf8f01cfea414140de5dae2223b00361a396177a9cb410ff61f20015ad")⟩ :=
  have hun : ∀ f, some sampleFile = some f → happyEnv.unlinkSync f.path = .ok () :=
    fun _ _ => rfl
  have t := register_success_result happyEnv (some sampleFile) "./video/test.mp4" hun
  ⟨hun,
    t.2.1 sampleFile abc ⟨"0x5c504ed432cb51138bcf09aa5e8a410dd4a1e204ef84bfed1be16dfba1b22060"⟩
      rfl rfl rfl rfl rfl,
    (t.2.2.1 _).mpr ⟨abc, ⟨sampleId ++ ".mp4"⟩, _, abc, _, 1700000000, rfl,
      by simp [ProcessVideoJs.ensureBucket, happyEnv], rfl, rfl, rfl, rfl, rfl, rfl⟩⟩

/-- A successful response of `POST /upload` determines the whole run. -/
theorem postUpload_of_success (env : Env) (file : Option UploadedFile)
    (h : (Server.postUpload env file).result.body.get "success" = some (.bool true)) :
    ∃ f buf tx, file = some f ∧ env.readFileSync f.path = .ok buf
      ∧ Server.postUpload env file
        = ⟨⟨200, [("success", .bool true), ("videoId", .str env.randomUUID),
              ("hash", .str (sha256hex buf)), ("txHash", .str tx.hash)]⟩,
            [.readFileSync f.path, .upload (env.randomUUID ++ ".mp4") buf "video/mp4",
             .registerVideo env.randomUUID (sha256hex buf), .wait tx, .unlinkSync f.path]⟩ := by
  cases file with
  | none => simp [Server.postUpload, Json.get, List.lookup] at h
  | some f =>
    cases hread : env.readFileSync f.path with
    | error msg => simp [Server.postUpload, hread, Json.get, List.lookup] at h
    | ok buf =>
      cases hup : (env.upload (env.randomUUID ++ ".mp4") buf "video/mp4").error with
      | some msg => simp [Server.postUpload, hread, hup, Json.get, List.lookup] at h
      | none =>
        cases hreg : env.registerVideo env.randomUUID (sha256hex buf) with
        | error msg => simp [Server.postUpload, hread, hup, hreg, Json.get, List.lookup] at h
        | ok tx =>
          cases hwait : env.wait tx with
          | error msg =>
            simp [Server.postUpload, hread, hup, hreg, hwait, Json.get, List.lookup] at h
          | ok u =>
            cases hunlink : env.unlinkSync f.path with
            | error msg =>
              simp [Server.postUpload, hread, hup, hreg, hwait, hunlink, Json.get,
                List.lookup] at h
            | ok v =>
              refine ⟨f, buf, tx, rfl, hread, ?_⟩
              simp [Server.postUpload, hread, hup, hreg, hwait, hunlink]

/-- Each word of a digest is a 32-bit word. -/
theorem digest_words_lt (m : Bytes) :
    (Sha256.digest m).a < 4294967296 ∧ (Sha256.digest m).b < 4294967296
    ∧ (Sha256.digest m).c < 4294967296 ∧ (Sha256.digest m).d < 4294967296
    ∧ (Sha256.digest m).e < 4294967296 ∧ (Sha256.digest m).f < 4294967296
    ∧ (Sha256.digest m).g < 4294967296 ∧ (Sha256.digest m).h < 4294967296 := by
  have key : ∀ (bs : List (List Nat)) (s : Sha256.State),
      (s.a < 4294967296 ∧ s.b < 4294967296 ∧ s.c < 4294967296 ∧ s.d < 4294967296
        ∧ s.e < 4294967296 ∧ s.f < 4294967296 ∧ s.g < 4294967296 ∧ s.h < 4294967296) →
      ((bs.foldl Sha256.compress s).a < 4294967296 ∧ (bs.foldl Sha256.compress s).b < 4294967296
        ∧ (bs.foldl Sha256.compress s).c < 4294967296
        ∧ (bs.foldl Sha256.compress s).d < 4294967296
        ∧ (bs.foldl Sha256.compress s).e < 4294967296
        ∧ (bs.foldl Sha256.compress s).f < 4294967296
        ∧ (bs.foldl Sha256.compress s).g < 4294967296
        ∧ (bs.foldl Sha256.compress s).h < 4294967296) := by
    intro bs
    induction bs with
    | nil => intro s hs; simpa using hs
    | cons b rest ih =>
      intro s _
      rw [List.foldl_cons]
      apply ih
      have hlt : ∀ x y, Sha256.add32 x y < 4294967296 :=
        fun x y => Nat.mod_lt _ (by norm_num)
      exact ⟨hlt _ _, hlt _ _, hlt _ _, hlt _ _, hlt _ _, hlt _ _, hlt _ _, hlt _ _⟩
  exact key _ Sha256.H0 (by simp [Sha256.H0])

/-- Two different byte sequences have the same SHA-256 digest: the digests are eight
32-bit words and the byte sequences are infinitely many. -/
theorem sha256hex_collision : ∃ x y : Bytes, x ≠ y ∧ sha256hex x = sha256hex y := by
  let key : Bytes → Fin 4294967296 × Fin 4294967296 × Fin 4294967296 × Fin 4294967296
      × Fin 4294967296 × Fin 4294967296 × Fin 4294967296 × Fin 4294967296 := fun m =>
    (⟨_, (digest_words_lt m).1⟩, ⟨_, (digest_words_lt m).2.1⟩,
     ⟨_, (digest_words_lt m).2.2.1⟩, ⟨_, (digest_words_lt m).2.2.2.1⟩,
     ⟨_, (digest_words_lt m).2.2.2.2.1⟩, ⟨_, (digest_words_lt m).2.2.2.2.2.1⟩,
     ⟨_, (digest_words_lt m).2.2.2.2.2.2.1⟩, ⟨_, (digest_words_lt m).2.2.2.2.2.2.2⟩)
  obtain ⟨x, y, hne, heq⟩ := Finite.exists_ne_map_eq_of_infinite key
  refine ⟨x, y, hne, ?_⟩
  have hd : Sha256.digest x = Sha256.digest y := by
    simp only [key, Prod.mk.injEq, Fin.mk.injEq] at heq
    obtain ⟨h1, h2, h3, h4, h5, h6, h7, h8⟩ := heq
    cases hx : Sha256.digest x
    cases hy : Sha256.digest y
    rw [hx, hy] at h1 h2 h3 h4 h5 h6 h7 h8
    simp only at h1 h2 h3 h4 h5 h6 h7 h8
    subst h1 h2 h3 h4 h5 h6 h7 h8
    rfl
  unfold sha256hex
  rw [hd]

/-- C4. Round trip: when `POST /upload` answers `success: true` with id `id`, and
afterwards the store returns for each key what the run uploaded under it and the ledger
returns for each id the hash the run registered for it, then `GET /verify/:videoId` for
`id` answers 200 with `valid: true`, `tampered: false` and `currentHash` equal to
`storedHash` (both the `hash` of the upload response); `verify.js` exits with status 0 and
`verify-video.js` returns `valid: true`, `tampered: false` with equal hashes. -/
theorem register_then_verify_is_valid (envR envV : Env) (file : Option UploadedFile)
    (id : String)
    (hreg : (Server.postUpload envR file).result.body.get "success" = some (.bool true))
    (hid : (Server.postUpload envR file).result.body.get "videoId" = some (.str id))
    (hstore : ∀ key body contentType,
      Call.upload key body contentType ∈ (Server.postUpload envR file).calls →
      envV.download key = ⟨some body, none⟩)
    (hledger : ∀ i hash, Call.registerVideo i hash ∈ (Server.postUpload envR file).calls →
      ∃ t, envV.getVideo i = .ok (hash, t)) :
    ((Server.getVerify envV id).result.status = 200
      ∧ (Server.getVerify envV id).result.body.get "valid" = some (.bool true)
      ∧ (Server.getVerify envV id).result.body.get "tampered" = some (.bool false)
      ∧ (Server.getVerify envV id).result.body.get "currentHash"
          = (Server.getVerify envV id).result.body.get "storedHash"
      ∧ (Server.getVerify envV id).result.body.get "storedHash"
          = (Server.postUpload envR file).result.body.get "hash")
    ∧ (VerifyJs.verifyVideo envV id).outcome = .exit 0
    ∧ ∃ r, (VerifyVideoJs.verifyVideo envV id).outcome = .returned r
        ∧ r.valid = true ∧ r.tampered = false ∧ r.currentHash = r.storedHash := by
  obtain ⟨f, buf, tx, _, _, hrun⟩ := postUpload_of_success envR file hreg
  rw [hrun] at hid hstore hledger ⊢
  have hid2 : envR.randomUUID = id := by
    simpa [Json.get, List.lookup] using hid
  subst hid2
  have hd := hstore (envR.randomUUID ++ ".mp4") buf "video/mp4" (by simp)
  obtain ⟨t, hg⟩ := hledger envR.randomUUID (sha256hex buf) (by simp)
  refine ⟨?_, ?_, ?_⟩
  · simp [Server.getVerify, hd, hg, Json.get, List.lookup]
  · simp [VerifyJs.verifyVideo, hd, hg]
  · simp [VerifyVideoJs.verifyVideo, hd, hg]

theorem register_then_verify_is_valid_witness :
    (Server.postUpload happyEnv (some sampleFile)).result.body.get "success" = some (.bool true)
    ∧ (Server.getVerify happyEnv sampleId).result.body.get "valid" = some (.bool true)
    ∧ (VerifyJs.verifyVideo happyEnv sampleId).outcome = .exit 0 :=
  have hreg : (Server.postUpload happyEnv (some sampleFile)).result.body.get "success"
      = some (.bool true) := by
    simp [Server.postUpload, happyEnv, Json.get, List.lookup]
  have t := register_then_verify_is_valid happyEnv happyEnv (some sampleFile) sampleId hreg
    (by simp [Server.postUpload, happyEnv, Json.get, List.lookup])
    (by
      intro key body contentType hmem
      simp [Server.postUpload, happyEnv] at hmem
      simp [happyEnv, hmem.2.1])
    (by
      intro i hash hmem
      simp [Server.postUpload, happyEnv] at hmem
      exact ⟨1700000000, by simp [happyEnv, hmem.2, sha256hex_abc]⟩)
  ⟨hreg, t.1.2.1, t.2.1⟩

/-- C6, as stated, fails: for an id that was never registered and for which nothing is
stored, `GET /verify/:videoId` and `verify.js` report "Video not found in database", not
"Video hash not found on blockchain", and never ask the ledger. -/
theorem unknown_id_reports_content_not_found :
    emptyEnv.getVideo "nonexistent-id" = .error "execution reverted: Video not found"
    ∧ Server.getVerify emptyEnv "nonexistent-id"
        = ⟨⟨404, [("error", .str "Video not found in database"),
              ("videoId", .str "nonexistent-id")]⟩,
            [.download "nonexistent-id.mp4"]⟩
    ∧ VerifyJs.verifyVideo emptyEnv "nonexistent-id"
        = ⟨.exit 1, ["❌ Error: Video not found in database", "   Video ID: nonexistent-id"],
            [.download "nonexistent-id.mp4"]⟩ := by
  refine ⟨rfl, ?_, ?_⟩
  · simp [Server.getVerify, emptyEnv]
  · simp [VerifyJs.verifyVideo, emptyEnv]

/-- C6, amended: for an id without a ledger record (`contract.getVideo` throws), no verify
entry point yields a verification result, neither `valid: true` nor `valid: false`. When
the content is obtained (the store download succeeds, or the local file is read) the
outcome is "Video hash not found on blockchain" (404, or exit status 1); when the store
download fails the outcome is "Video not found in database" and the ledger is not asked. -/
theorem no_ledger_record_never_yields_verdict (env : Env) (id filePath msg : String)
    (hg : env.getVideo id = .error msg) :
    ((Server.getVerify env id).result.status = 404
      ∧ (Server.getVerify env id).result.body.get "valid" = none
      ∧ (∀ b, env.download (id ++ ".mp4") = ⟨some b, none⟩ →
          (Server.getVerify env id).result
            = ⟨404, [("error", .str "Video hash not found on blockchain"),
                ("videoId", .str id), ("details", .str msg)]⟩)
      ∧ ((env.download (id ++ ".mp4")).error ≠ none ∨ (env.download (id ++ ".mp4")).data = none →
          Server.getVerify env id
            = ⟨⟨404, [("error", .str "Video not found in database"), ("videoId", .str id)]⟩,
                [.download (id ++ ".mp4")]⟩))
    ∧ ((VerifyJs.verifyVideo env id).outcome = .exit 1
      ∧ (∀ b, env.download (id ++ ".mp4") = ⟨some b, none⟩ →
          (VerifyJs.verifyVideo env id).stderr
            = ["❌ Error: Video hash not found on blockchain", "   " ++ msg])
      ∧ ((env.download (id ++ ".mp4")).error ≠ none ∨ (env.download (id ++ ".mp4")).data = none →
          VerifyJs.verifyVideo env id
            = ⟨.exit 1, ["❌ Error: Video not found in database", "   Video ID: " ++ id],
                [.download (id ++ ".mp4")]⟩))
    ∧ (∀ buf, env.readFileSync filePath = .ok buf →
        VerifyLocalJs.verifyLocalVideo env filePath id
          = ⟨.exit 1, ["❌ Error: Video hash not found on blockchain", "   " ++ msg],
              [.readFileSync filePath, .getVideo id]⟩) := by
  refine ⟨?_, ?_, ?_⟩
  · cases herr : (env.download (id ++ ".mp4")).error <;>
      cases hdata : (env.download (id ++ ".mp4")).data <;>
      simp [Server.getVerify, herr, hdata, hg, Json.get, List.lookup] <;>
      intro b hb <;> rw [hb] at herr hdata <;> simp at herr hdata
  · cases herr : (env.download (id ++ ".mp4")).error <;>
      cases hdata : (env.download (id ++ ".mp4")).data <;>
      simp [VerifyJs.verifyVideo, herr, hdata, hg] <;>
      intro b hb <;> rw [hb] at herr hdata <;> simp at herr hdata
  · intro buf hread
    simp [VerifyLocalJs.verifyLocalVideo, hread, hg]

theorem no_ledger_record_never_yields_verdict_witness :
    emptyEnv.getVideo "nonexistent-id" = .error "execution reverted: Video not found"
    ∧ (Server.getVerify emptyEnv "nonexistent-id").result.body.get "valid" = none
    ∧ VerifyLocalJs.verifyLocalVideo emptyEnv "./video/test.mp4" "nonexistent-id"
        = ⟨.exit 1, ["❌ Error: Video hash not found on blockchain",
              "   " ++ "execution reverted: Video not found"],
            [.readFileSync "./video/test.mp4", .getVideo "nonexistent-id"]⟩ :=
  have t := no_ledger_record_never_yields_verdict emptyEnv "nonexistent-id" "./video/test.mp4"
    "execution reverted: Video not found" rfl
  ⟨rfl, t.1.2.1, t.2.2 abc rfl⟩

/-- C7. Content not found: in remote verification, when the store download returns an
error or no data, `GET /verify/:videoId` answers 404 with the error
"Video not found in database", which is not the "Video hash not found on blockchain"
error; `verify-video.js` and `verify.js` write the same error and exit with status 1; in
all three the download is the only call made, so `contract.getVideo` is never invoked. -/
theorem content_not_found_skips_ledger (env : Env) (id : String)
    (hdl : (env.download (id ++ ".mp4")).error ≠ none ∨ (env.download (id ++ ".mp4")).data = none) :
    (Server.getVerify env id
        = ⟨⟨404, [("error", .str "Video not found in database"), ("videoId", .str id)]⟩,
            [.download (id ++ ".mp4")]⟩
      ∧ (Server.getVerify env id).result.body.get "error"
          ≠ some (.str "Video hash not found on blockchain")
      ∧ (∀ i, Call.getVideo i ∉ (Server.getVerify env id).calls))
    ∧ ((VerifyVideoJs.verifyVideo env id).outcome = .exit 1
      ∧ (VerifyVideoJs.verifyVideo env id).stderr.head?
          = some "❌ Error: Video not found in database"
      ∧ (VerifyVideoJs.verifyVideo env id).calls = [.download (id ++ ".mp4")]
      ∧ (∀ i, Call.getVideo i ∉ (VerifyVideoJs.verifyVideo env id).calls))
    ∧ ((VerifyJs.verifyVideo env id).outcome = .exit 1
      ∧ (VerifyJs.verifyVideo env id).stderr.head?
          = some "❌ Error: Video not found in database"
      ∧ (VerifyJs.verifyVideo env id).calls = [.download (id ++ ".mp4")]
      ∧ (∀ i, Call.getVideo i ∉ (VerifyJs.verifyVideo env id).calls)) := by
  refine ⟨?_, ?_, ?_⟩
  · cases herr : (env.download (id ++ ".mp4")).error <;>
      cases hdata : (env.download (id ++ ".mp4")).data <;>
      simp_all [Server.getVerify, Json.get, List.lookup]
  · cases herr : (env.download (id ++ ".mp4")).error <;>
      cases hdata : (env.download (id ++ ".mp4")).data <;>
      simp_all [VerifyVideoJs.verifyVideo]
  · cases herr : (env.download (id ++ ".mp4")).error <;>
      cases hdata : (env.download (id ++ ".mp4")).data <;>
      simp_all [VerifyJs.verifyVideo]

theorem content_not_found_skips_ledger_witness :
    ((lostBlobEnv.download (sampleId ++ ".mp4")).error ≠ none
      ∨ (lostBlobEnv.download (sampleId ++ ".mp4")).data = none)
    ∧ (Server.getVerify lostBlobEnv sampleId).result.status = 404
    ∧ (VerifyVideoJs.verifyVideo lostBlobEnv sampleId).outcome = .exit 1 :=
  have hdl : (lostBlobEnv.download (sampleId ++ ".mp4")).error ≠ none
      ∨ (lostBlobEnv.download (sampleId ++ ".mp4")).data = none := Or.inr rfl
  have t := content_not_found_skips_ledger lostBlobEnv sampleId hdl
  ⟨hdl, by rw [t.1.1], t.2.1.1⟩

/-- C8, as stated, fails: the ledger digest is the upper-case spelling of the recomputed
digest of `abc`, so the two are equal after case normalization, and yet
`GET /verify/:videoId` answers `valid: false`, `verify-video.js` returns `valid: false` and
`verify-local.js` exits with status 1. -/
theorem upper_case_ledger_digest_is_invalid :
    upperCaseEnv.download (sampleId ++ ".mp4") = ⟨some abc, none⟩
    ∧ upperCaseEnv.getVideo sampleId
        = .ok ("BA7816BF8F01CFEA414140DE5DAE2223B00361A396177A9CB410FF61F20015AD", 1700000000)
    ∧ (sha256hex abc).toList.map Char.toUpper
        = "BA7816BF8F01CFEA414140DE5DAE2223B00361A396177A9CB410FF61F20015AD".toList
    ∧ (sha256hex abc).toList.map Char.toLower
        = "BA7816BF8F01CFEA414140DE5DAE2223B00361A396177A9CB410FF61F20015AD".toList.map
            Char.toLower
    ∧ (Server.getVerify upperCaseEnv sampleId).result.body.get "valid" = some (.bool false)
    ∧ (∃ r, (VerifyVideoJs.verifyVideo upperCaseEnv sampleId).outcome = .returned r
        ∧ r.valid = false)
    ∧ (VerifyLocalJs.verifyLocalVideo upperCaseEnv "./video/test.mp4" sampleId).outcome
        = .exit 1 := by
  refine ⟨rfl, rfl, ?_, ?_, ?_, ?_, ?_⟩
  · rw [sha256hex_abc]; decide
  · rw [sha256hex_abc]; decide
  · simp [Server.getVerify, upperCaseEnv, happyEnv, sha256hex_abc, Json.get, List.lookup]
  · simp [VerifyVideoJs.verifyVideo, upperCaseEnv, happyEnv, sha256hex_abc]
  · simp [VerifyLocalJs.verifyLocalVideo, upperCaseEnv, happyEnv, sha256hex_abc]

/-- C8, amended: for every recomputed digest `c` (the SHA-256 hex digest of the bytes
obtained) and every ledger digest `s`, verify sets `valid` to true exactly when `c` and `s`
are the same string, character for character, with no case normalization:
`GET /verify/:videoId` and `verify-video.js` in `valid`, `verify-local.js` and `verify.js`
in the exit status 0. -/
theorem valid_iff_same_string (env : Env) (id filePath : String) (b : Bytes) (s : String)
    (t : Nat) (hd : env.download (id ++ ".mp4") = ⟨some b, none⟩)
    (hread : env.readFileSync filePath = .ok b) (hg : env.getVideo id = .ok (s, t)) :
    ((Server.getVerify env id).result.body.get "valid" = some (.bool true) ↔ sha256hex b = s)
    ∧ ((Server.getVerify env id).result.body.get "valid" = some (.bool false)
        ↔ sha256hex b ≠ s)
    ∧ (∃ r, (VerifyVideoJs.verifyVideo env id).outcome = .returned r
        ∧ (r.valid = true ↔ sha256hex b = s))
    ∧ ((VerifyLocalJs.verifyLocalVideo env filePath id).outcome = .exit 0 ↔ sha256hex b = s)
    ∧ ((VerifyJs.verifyVideo env id).outcome = .exit 0 ↔ sha256hex b = s) := by
  refine ⟨?_, ?_, ?_, ?_, ?_⟩
  · simp [Server.getVerify, hd, hg, Json.get, List.lookup]
  · simp [Server.getVerify, hd, hg, Json.get, List.lookup]
  · simp [VerifyVideoJs.verifyVideo, hd, hg]
  · by_cases h : sha256hex b = s <;> simp [VerifyLocalJs.verifyLocalVideo, hread, hg, h]
  · by_cases h : sha256hex b = s <;> simp [VerifyJs.verifyVideo, hd, hg, h]

theorem valid_iff_same_string_witness :
    happyEnv.download (sampleId ++ ".mp4") = ⟨some abc, none⟩
    ∧ (Server.getVerify happyEnv sampleId).result.body.get "valid" = some (.bool true) :=
  have t := valid_iff_same_string happyEnv sampleId "./video/test.mp4" abc
    "ba7816bf8f01cfea414140de5dae2223b00361a396177a9cb410ff61f20015ad" 1700000000 rfl rfl rfl
  ⟨rfl, t.1.mpr sha256hex_abc⟩

/-- C9. Verify result shape: whenever verify obtains content bytes `b` and a ledger record
`(s, t)` for `id`, `GET /verify/:videoId` answers 200 with a body, and `verify-video.js`
returns a result, in which `tampered` is the negation of `valid`, `currentHash` is the
SHA-256 hex digest of `b`, `storedHash` is `s` unchanged and `timestamp` is the decimal
string of `t`; `valid` and `tampered` always differ. -/
theorem verify_result_shape (env : Env) (id : String) (b : Bytes) (s : String) (t : Nat)
    (hd : env.download (id ++ ".mp4") = ⟨some b, none⟩) (hg : env.getVideo id = .ok (s, t)) :
    (∃ valid : Bool, (Server.getVerify env id).result
        = ⟨200, [("valid", .bool valid), ("tampered", .bool (!valid)),
            ("message", .str (if valid
              then "✅ Video is authentic and has not been tampered with"
              else "⚠️ WARNING: Video has been tampered with!")),
            ("storedHash", .str s), ("currentHash", .str (sha256hex b)),
            ("timestamp", .str (Nat.repr t)), ("videoId", .str id)]⟩
        ∧ valid ≠ !valid)
    ∧ (∃ r, (VerifyVideoJs.verifyVideo env id).outcome = .returned r
        ∧ r.tampered = !r.valid ∧ r.valid ≠ r.tampered ∧ r.currentHash = sha256hex b
        ∧ r.storedHash = s ∧ r.timestamp = Nat.repr t ∧ r.videoId = id) := by
  refine ⟨⟨decide (sha256hex b = s), ?body, ?differ⟩, ?script⟩
  case body =>
    simp only [Server.getVerify, hd, hg]
    rfl
  case differ => cases decide (sha256hex b = s) <;> simp
  case script =>
    simp only [VerifyVideoJs.verifyVideo, hd, hg]
    refine ⟨_, rfl, rfl, ?_, rfl, rfl, rfl, rfl⟩
    cases decide (sha256hex b = s) <;> simp

theorem verify_result_shape_witness :
    tamperedEnv.download (sampleId ++ ".mp4") = ⟨some abd, none⟩
    ∧ ∃ r, (VerifyVideoJs.verifyVideo tamperedEnv sampleId).outcome = .returned r
        ∧ r.tampered = !r.valid ∧ r.valid ≠ r.tampered ∧ r.currentHash = sha256hex abd
        ∧ r.storedHash = "ba7816bf8f01cfea414140de5dae2223b00361a396177a9cb410ff61f20015ad"
        ∧ r.timestamp = Nat.repr 1700000000 ∧ r.videoId = sampleId :=
  ⟨rfl, (verify_result_shape tamperedEnv sampleId abd
    "ba7816bf8f01cfea414140de5dae2223b00361a396177a9cb410ff61f20015ad" 1700000000 rfl rfl).2⟩

/-- C10, as stated, fails: `verify.js` ends a tampered result (content and ledger record
both obtained, digests differ) with exit status 1, the exit status it also gives to
"Video not found in database" and to "Video hash not found on blockchain";
`verify-local.js` does the same for a tampered file and a missing ledger record. -/
theorem tampered_exit_status_is_the_error_exit_status :
    (VerifyJs.script tamperedEnv (some sampleId)
        = ⟨.exit 1, [], [.download (sampleId ++ ".mp4"), .getVideo sampleId]⟩
      ∧ (VerifyJs.script lostBlobEnv (some sampleId)).stderr.head?
          = some "❌ Error: Video not found in database"
      ∧ (VerifyJs.script unregisteredEnv (some sampleId)).stderr.head?
          = some "❌ Error: Video hash not found on blockchain"
      ∧ (VerifyJs.script tamperedEnv (some sampleId)).outcome.exitStatus
          = (VerifyJs.script lostBlobEnv (some sampleId)).outcome.exitStatus
      ∧ (VerifyJs.script tamperedEnv (some sampleId)).outcome.exitStatus
          = (VerifyJs.script unregisteredEnv (some sampleId)).outcome.exitStatus)
    ∧ (VerifyLocalJs.script editedFileEnv (some "./video/test.mp4") (some sampleId)
        = ⟨.exit 1, [], [.readFileSync "./video/test.mp4", .getVideo sampleId]⟩
      ∧ (VerifyLocalJs.script unregisteredEnv (some "./video/test.mp4")
            (some sampleId)).stderr.head?
          = some "❌ Error: Video hash not found on blockchain"
      ∧ (VerifyLocalJs.script editedFileEnv (some "./video/test.mp4")
            (some sampleId)).outcome.exitStatus
          = (VerifyLocalJs.script unregisteredEnv (some "./video/test.mp4")
              (some sampleId)).outcome.exitStatus) := by
  have hne : ¬ "a52d159f262b2c6ddb724a61840befc36eb30c88877a4030b65cbe86298449c9"
      = "ba7816bf8f01cfea414140de5dae2223b00361a396177a9cb410ff61f20015ad" := by decide
  have hid : ¬ sampleId = "" := by decide
  have hpath : ¬ "./video/test.mp4" = "" := by decide
  refine ⟨⟨?_, ?_, ?_, ?_, ?_⟩, ?_, ?_, ?_⟩
  · simp [VerifyJs.script, VerifyJs.verifyVideo, tamperedEnv, happyEnv, sha256hex_abd, hne, hid]
  · simp [VerifyJs.script, VerifyJs.verifyVideo, lostBlobEnv, happyEnv, hid]
  · simp [VerifyJs.script, VerifyJs.verifyVideo, unregisteredEnv, happyEnv, hid]
  · simp [VerifyJs.script, VerifyJs.verifyVideo, tamperedEnv, lostBlobEnv, happyEnv,
      sha256hex_abd, hne, hid, Outcome.exitStatus]
  · simp [VerifyJs.script, VerifyJs.verifyVideo, tamperedEnv, unregisteredEnv, happyEnv,
      sha256hex_abd, hne, hid, Outcome.exitStatus]
  · simp [VerifyLocalJs.script, VerifyLocalJs.verifyLocalVideo, editedFileEnv, happyEnv,
      sha256hex_abd, hne, hid, hpath]
  · simp [VerifyLocalJs.script, VerifyLocalJs.verifyLocalVideo, unregisteredEnv, happyEnv,
      hid, hpath]
  · simp [VerifyLocalJs.script, VerifyLocalJs.verifyLocalVideo, editedFileEnv, unregisteredEnv,
      happyEnv, sha256hex_abd, hne, hid, hpath, Outcome.exitStatus]

/-- C10, amended: `GET /verify/:videoId` signals a verdict with status 200 and a body that
has `valid` and `tampered` (one the negation of the other) and no `error`, and signals
each error outcome with status 404 and a body that has `error` ("Video not found in
database" or "Video hash not found on blockchain") and neither `valid` nor `tampered`; so
there not-found, tampered and authentic do not overlap. `verify.js` and `verify-local.js`
exit with status 0 exactly for an authentic result, and with status 1 otherwise: for a
tampered result as for every error outcome. -/
theorem verify_signals (env : Env) (id : String) (arg pathArg idArg : Option String) :
    (((Server.getVerify env id).result.status = 200
        ∧ (Server.getVerify env id).result.body.get "error" = none
        ∧ ∃ valid, (Server.getVerify env id).result.body.get "valid" = some (.bool valid)
            ∧ (Server.getVerify env id).result.body.get "tampered" = some (.bool (!valid)))
      ∨ ((Server.getVerify env id).result.status = 404
        ∧ (Server.getVerify env id).result.body.get "valid" = none
        ∧ (Server.getVerify env id).result.body.get "tampered" = none
        ∧ ((Server.getVerify env id).result.body.get "error"
              = some (.str "Video not found in database")
            ∨ (Server.getVerify env id).result.body.get "error"
              = some (.str "Video hash not found on blockchain"))))
    ∧ (((VerifyJs.script env arg).outcome = .exit 0
        ↔ ∃ videoId b t, arg = some videoId ∧ videoId ≠ ""
            ∧ env.download (videoId ++ ".mp4") = ⟨some b, none⟩
            ∧ env.getVideo videoId = .ok (sha256hex b, t))
      ∧ ((VerifyJs.script env arg).outcome ≠ .exit 0 → (VerifyJs.script env arg).outcome = .exit 1))
    ∧ (((VerifyLocalJs.script env pathArg idArg).outcome = .exit 0
        ↔ ∃ videoPath videoId b t, pathArg = some videoPath ∧ idArg = some videoId
            ∧ videoPath ≠ "" ∧ videoId ≠ "" ∧ env.existsSync videoPath = true
            ∧ env.readFileSync videoPath = .ok b
            ∧ env.getVideo videoId = .ok (sha256hex b, t))
      ∧ ((VerifyLocalJs.script env pathArg idArg).outcome ≠ .exit 0 →
          (VerifyLocalJs.script env pathArg idArg).outcome = .exit 1)) := by
  refine ⟨?_, ?_, ?_⟩
  · rcases hdl : env.download (id ++ ".mp4") with ⟨data, error⟩
    cases hg : env.getVideo id with
    | error msg =>
      cases data <;> cases error <;> simp [Server.getVerify, hdl, hg, Json.get, List.lookup]
    | ok rec =>
      obtain ⟨s, t⟩ := rec
      cases data <;> cases error <;> simp [Server.getVerify, hdl, hg, Json.get, List.lookup]
  · cases arg with
    | none => simp [VerifyJs.script]
    | some videoId =>
      by_cases hid : videoId = ""
      · simp [VerifyJs.script, hid]
      · rcases hdl : env.download (videoId ++ ".mp4") with ⟨data, error⟩
        cases data with
        | none => cases error <;> simp [VerifyJs.script, VerifyJs.verifyVideo, hdl, hid]
        | some b =>
          cases error with
          | some e => simp [VerifyJs.script, VerifyJs.verifyVideo, hdl, hid]
          | none =>
            cases hg : env.getVideo videoId with
            | error msg => simp [VerifyJs.script, VerifyJs.verifyVideo, hdl, hid, hg]
            | ok rec =>
              obtain ⟨s, t⟩ := rec
              by_cases h : sha256hex b = s
              · simp [VerifyJs.script, VerifyJs.verifyVideo, hdl, hid, hg, h]
              · simp [VerifyJs.script, VerifyJs.verifyVideo, hdl, hid, hg, h]
                exact fun e => h e.symm
  · cases pathArg with
    | none => simp [VerifyLocalJs.script]
    | some videoPath =>
      cases idArg with
      | none => simp [VerifyLocalJs.script]
      | some videoId =>
        by_cases hp : videoPath = ""
        · simp [VerifyLocalJs.script, hp]
        · by_cases hid : videoId = ""
          · simp [VerifyLocalJs.script, hid]
          · cases hex : env.existsSync videoPath with
            | false => simp [VerifyLocalJs.script, hp, hid, hex]
            | true =>
              cases hread : env.readFileSync videoPath with
              | error msg =>
                simp [VerifyLocalJs.script, VerifyLocalJs.verifyLocalVideo, hp, hid, hex, hread]
              | ok b =>
                cases hg : env.getVideo videoId with
                | error msg =>
                  simp [VerifyLocalJs.script, VerifyLocalJs.verifyLocalVideo, hp, hid, hex,
                    hread, hg]
                | ok rec =>
                  obtain ⟨s, t⟩ := rec
                  by_cases h : sha256hex b = s
                  · simp [VerifyLocalJs.script, VerifyLocalJs.verifyLocalVideo, hp, hid, hex,
                      hread, hg, h]
                  · simp [VerifyLocalJs.script, VerifyLocalJs.verifyLocalVideo, hp, hid, hex,
                      hread, hg, h]
                    exact fun e => h e.symm

theorem verify_signals_witness :
    (VerifyJs.script happyEnv (some sampleId)).outcome = .exit 0
    ∧ ((VerifyJs.script tamperedEnv (some sampleId)).outcome ≠ .exit 0 →
        (VerifyJs.script tamperedEnv (some sampleId)).outcome = .exit 1) :=
  ⟨(verify_signals happyEnv sampleId (some sampleId) none none).2.1.1.mpr
      ⟨sampleId, abc, 1700000000, rfl, by decide, rfl, by simp [happyEnv, sha256hex_abc]⟩,
    (verify_signals tamperedEnv sampleId (some sampleId) none none).2.1.2⟩

/-- C11. Local verification does not consult the store: `verifyLocalVideo` makes no
content-store call (it reads the file and then, at most, asks the ledger for the record),
its whole run is determined by the bytes of the file and the ledger's answer for `id`, and
it ends with exit status 0 exactly when the SHA-256 hex digest of the local bytes equals
the ledger digest. -/
theorem local_verify_ignores_store (env : Env) (filePath id : String) :
    (∀ c ∈ (VerifyLocalJs.verifyLocalVideo env filePath id).calls, c.isStore = false)
    ∧ (∀ env2 : Env, env2.readFileSync filePath = env.readFileSync filePath →
        env2.getVideo id = env.getVideo id →
        VerifyLocalJs.verifyLocalVideo env2 filePath id
          = VerifyLocalJs.verifyLocalVideo env filePath id)
    ∧ (∀ b s t, env.readFileSync filePath = .ok b → env.getVideo id = .ok (s, t) →
        ((VerifyLocalJs.verifyLocalVideo env filePath id).outcome = .exit 0 ↔ sha256hex b = s)
        ∧ ((VerifyLocalJs.verifyLocalVideo env filePath id).outcome = .exit 1
            ↔ sha256hex b ≠ s)
        ∧ (VerifyLocalJs.verifyLocalVideo env filePath id).calls
            = [.readFileSync filePath, .getVideo id]) := by
  refine ⟨?_, ?_, ?_⟩
  · intro c hc
    cases hread : env.readFileSync filePath with
    | error msg =>
      simp [VerifyLocalJs.verifyLocalVideo, hread] at hc
      subst hc; rfl
    | ok b =>
      cases hg : env.getVideo id with
      | error msg =>
        simp [VerifyLocalJs.verifyLocalVideo, hread, hg] at hc
        rcases hc with rfl | rfl <;> rfl
      | ok rec =>
        simp [VerifyLocalJs.verifyLocalVideo, hread, hg] at hc
        rcases hc with rfl | rfl <;> rfl
  · intro env2 hr hg
    simp only [VerifyLocalJs.verifyLocalVideo, hr, hg]
  · intro b s t hread hg
    by_cases h : sha256hex b = s <;> simp [VerifyLocalJs.verifyLocalVideo, hread, hg, h]

theorem local_verify_ignores_store_witness :
    (∀ c ∈ (VerifyLocalJs.verifyLocalVideo lostBlobEnv "./video/test.mp4" sampleId).calls,
        c.isStore = false)
    ∧ (VerifyLocalJs.verifyLocalVideo lostBlobEnv "./video/test.mp4" sampleId).outcome
        = .exit 0 :=
  have t := local_verify_ignores_store lostBlobEnv "./video/test.mp4" sampleId
  ⟨t.1, (t.2.2 abc "ba7816bf8f01cfea414140de5dae2223b00361a396177a9cb410ff61f20015ad"
    1700000000 rfl rfl).1.mpr sha256hex_abc⟩

/-- C12, as stated, fails: `test-video.js` run without a path argument does not end with an
input error; it takes `./video/test.mp4`, and when that file exists it goes on to upload
to the store and to write to the ledger. -/
theorem absent_path_runs_test_video :
    missingArg none = true
    ∧ (TestVideoJs.script happyEnv none).outcome = .returned ()
    ∧ Call.upload (sampleId ++ ".mp4") abc "video/mp4" ∈ (TestVideoJs.script happyEnv none).calls
    ∧ Call.registerVideo sampleId (sha256hex abc) ∈ (TestVideoJs.script happyEnv none).calls := by
  refine ⟨rfl, ?_, ?_, ?_⟩ <;>
    simp [TestVideoJs.script, TestVideoJs.testVideo, happyEnv]

/-- C12, amended: an invocation whose source file or record id is missing ends with an
input error and makes no call at all, hence no store or ledger operation: `POST /upload`
without a file answers 400; `verify.js` and `verify-video.js` without an id, `verify-local.js`
without a path or an id or with a path that does not exist, and `process-video.js` and
`calculate-hash.js` without a path or with a path that does not exist, exit with status 1.
`test-video.js` replaces an absent path by `./video/test.mp4` and exits with status 1,
without any call, when the resulting path does not exist. -/
theorem input_errors_fail_fast (env : Env) (arg pathArg idArg : Option String) :
    Server.postUpload env none = ⟨⟨400, [("error", .str "No video file provided")]⟩, []⟩
    ∧ (missingArg arg = true →
        (VerifyJs.script env arg).outcome = .exit 1 ∧ (VerifyJs.script env arg).calls = [])
    ∧ (missingArg arg = true →
        (VerifyVideoJs.script env arg).outcome = .exit 1
        ∧ (VerifyVideoJs.script env arg).calls = [])
    ∧ ((missingArg pathArg = true ∨ missingArg idArg = true
          ∨ ∃ p, pathArg = some p ∧ env.existsSync p = false) →
        (VerifyLocalJs.script env pathArg idArg).outcome = .exit 1
        ∧ (VerifyLocalJs.script env pathArg idArg).calls = [])
    ∧ ((missingArg arg = true ∨ ∃ p, arg = some p ∧ env.existsSync p = false) →
        (ProcessVideoJs.script env arg).outcome = .exit 1
        ∧ (ProcessVideoJs.script env arg).calls = [])
    ∧ ((missingArg arg = true ∨ ∃ p, arg = some p ∧ env.existsSync p = false) →
        (CalculateHashJs.script env arg).outcome = .exit 1
        ∧ (CalculateHashJs.script env arg).calls = [])
    ∧ (env.existsSync (if missingArg arg = true then "./video/test.mp4" else arg.getD "") = false →
        (TestVideoJs.script env arg).outcome = .exit 1
        ∧ (TestVideoJs.script env arg).calls = []) := by
  refine ⟨rfl, ?_, ?_, ?_, ?_, ?_, ?_⟩
  · intro h
    cases arg with
    | none => simp [VerifyJs.script]
    | some a =>
      have ha : a = "" := by simpa [missingArg] using h
      simp [VerifyJs.script, ha]
  · intro h
    cases arg with
    | none => simp [VerifyVideoJs.script]
    | some a =>
      have ha : a = "" := by simpa [missingArg] using h
      simp [VerifyVideoJs.script, ha]
  · intro h
    cases pathArg with
    | none => simp [VerifyLocalJs.script]
    | some p =>
      cases idArg with
      | none => simp [VerifyLocalJs.script]
      | some a =>
        by_cases hp : p = ""
        · simp [VerifyLocalJs.script, hp]
        · by_cases ha : a = ""
          · simp [VerifyLocalJs.script, ha]
          · rcases h with h | h | ⟨q, hq, hex⟩
            · simp [missingArg, hp] at h
            · simp [missingArg, ha] at h
            · cases hq
              simp [VerifyLocalJs.script, hp, ha, hex]
  · intro h
    cases arg with
    | none => simp [ProcessVideoJs.script]
    | some p =>
      by_cases hp : p = ""
      · simp [ProcessVideoJs.script, hp]
      · rcases h with h | ⟨q, hq, hex⟩
        · simp [missingArg, hp] at h
        · cases hq
          simp [ProcessVideoJs.script, hp, hex]
  · intro h
    cases arg with
    | none => simp [CalculateHashJs.script]
    | some p =>
      by_cases hp : p = ""
      · simp [CalculateHashJs.script, hp]
      · rcases h with h | ⟨q, hq, hex⟩
        · simp [missingArg, hp] at h
        · cases hq
          simp [CalculateHashJs.script, hp, hex]
  · intro h
    cases arg with
    | none =>
      simp [missingArg] at h
      simp [TestVideoJs.script, h]
    | some p =>
      by_cases hp : p = ""
      · simp [missingArg, hp] at h
        simp [TestVideoJs.script, hp, h]
      · simp [missingArg, hp] at h
        simp [TestVideoJs.script, hp, h]

theorem input_errors_fail_fast_witness :
    missingArg (some "") = true
    ∧ (VerifyVideoJs.script happyEnv (some "")).outcome = .exit 1
    ∧ (VerifyVideoJs.script happyEnv (some "")).calls = [] :=
  ⟨rfl, (input_errors_fail_fast happyEnv (some "") none none).2.2.1 rfl⟩

set_option maxRecDepth 100000 in
theorem sha256hex_ABC :
    sha256hex ABC = "b5d4045c3f466fa91fe2cc6abe79232a1a57cdf104f7a26e716e0a1e2789df78" := by
  decide

/-- Every digest is 64 characters long. -/
theorem sha256hex_length (b : Bytes) : (sha256hex b).length = 64 := by
  simp [sha256hex, Sha256.hex, Sha256.hexWord, String.length]

theorem hexDigit_mem (n : Nat) : Sha256.hexDigit n ∈ "0123456789abcdef".toList := by
  have h : n % 16 < 16 := Nat.mod_lt _ (by norm_num)
  unfold Sha256.hexDigit
  generalize n % 16 = k at h
  interval_cases k <;> decide

/-- Every character of a digest is a lower-case hexadecimal digit. -/
theorem sha256hex_chars (b : Bytes) :
    ∀ c ∈ (sha256hex b).toList, c ∈ "0123456789abcdef".toList := by
  have hword : ∀ (w : Nat) (c : Char), c ∈ Sha256.hexWord w →
      c ∈ "0123456789abcdef".toList := by
    intro w c hc
    obtain ⟨i, _, rfl⟩ := List.mem_map.mp hc
    exact hexDigit_mem _
  intro c hc
  have hlist : (sha256hex b).toList
      = Sha256.hexWord (Sha256.digest b).a ++ Sha256.hexWord (Sha256.digest b).b
        ++ Sha256.hexWord (Sha256.digest b).c ++ Sha256.hexWord (Sha256.digest b).d
        ++ Sha256.hexWord (Sha256.digest b).e ++ Sha256.hexWord (Sha256.digest b).f
        ++ Sha256.hexWord (Sha256.digest b).g ++ Sha256.hexWord (Sha256.digest b).h := rfl
  rw [hlist] at hc
  simp only [List.mem_append] at hc
  rcases hc with ((((((h | h) | h) | h) | h) | h) | h) | h <;> exact hword _ c h

/-- C13, as stated, fails: the digest the system computes for the three bytes `ABC` begins
with `b5d4`, not with `ba78`. -/
theorem digest_of_ABC_does_not_begin_with_ba78 :
    ABC.map Fin.val = "ABC".toList.map Char.toNat
    ∧ (sha256hex ABC).toList.take 4 = "b5d4".toList
    ∧ (sha256hex ABC).toList.take 4 ≠ "ba78".toList := by
  refine ⟨by decide, ?_, ?_⟩
  · rw [sha256hex_ABC]; decide
  · rw [sha256hex_ABC]; decide

/-- C13, amended: the digest computed for the three bytes `ABC` is the 64-character
lower-case hexadecimal string `b5d4045c…2789df78`, which begins with `b5d4`; it is what
`calculateHash` returns and what `POST /upload` reports as `hash` for a file holding `ABC`.
The digest that begins with `ba78` is that of the lower-case bytes `abc`. Every digest is
64 characters long and consists of lower-case hexadecimal digits. -/
theorem digest_of_ABC :
    sha256hex ABC = "b5d4045c3f466fa91fe2cc6abe79232a1a57cdf104f7a26e716e0a1e2789df78"
    ∧ (sha256hex ABC).toList.take 4 = "b5d4".toList
    ∧ (sha256hex abc).toList.take 4 = "ba78".toList
    ∧ (CalculateHashJs.calculateHash upperFileEnv "./video/test.mp4").outcome
        = .returned "b5d4045c3f466fa91fe2cc6abe79232a1a57cdf104f7a26e716e0a1e2789df78"
    ∧ (Server.postUpload upperFileEnv (some sampleFile)).result.body.get "hash"
        = some (.str "b5d4045c3f466fa91fe2cc6abe79232a1a57cdf104f7a26e716e0a1e2789df78")
    ∧ (∀ b : Bytes, (sha256hex b).length = 64
        ∧ ∀ c ∈ (sha256hex b).toList, c ∈ "0123456789abcdef".toList) := by
  refine ⟨sha256hex_ABC, ?_, ?_, ?_, ?_, fun b => ⟨sha256hex_length b, sha256hex_chars b⟩⟩
  · rw [sha256hex_ABC]; decide
  · rw [sha256hex_abc]; decide
  · simp [CalculateHashJs.calculateHash, upperFileEnv, happyEnv, sha256hex_ABC]
  · simp [Server.postUpload, upperFileEnv, happyEnv, sha256hex_ABC, Json.get, List.lookup]

/-- The calls of `GET /verify/:videoId`: the download, then at most the ledger read. -/
theorem getVerify_calls (env : Env) (id : String) :
    (Server.getVerify env id).calls = [.download (id ++ ".mp4")]
    ∨ (Server.getVerify env id).calls = [.download (id ++ ".mp4"), .getVideo id] := by
  rcases hdl : env.download (id ++ ".mp4") with ⟨data, error⟩
  cases hg : env.getVideo id with
  | error msg => cases data <;> cases error <;> simp [Server.getVerify, hdl, hg]
  | ok rec => cases data <;> cases error <;> simp [Server.getVerify, hdl, hg]

/-- C14. Verification is a function of the current content and ledger record: two runs of
remote verify in which the store gives the same answer for `<id>.mp4` and the ledger the
same answer for `id` return the same result and make the same calls, whatever else the two
worlds hold or answer; equal byte sequences have the same digest; and verify only reads
(the download, then at most `contract.getVideo`), so the store and the ledger are left as
they were, whatever the write effects of `upload`, `createBucket` and `registerVideo` are. -/
theorem remote_verify_is_pure {S L : Type} (put : S → String → Bytes → String → S)
    (create : S → String → S) (write : L → String → String → L) (st : S) (l : L)
    (env1 env2 : Env) (id : String)
    (hstore : env1.download (id ++ ".mp4") = env2.download (id ++ ".mp4"))
    (hledger : env1.getVideo id = env2.getVideo id) :
    Server.getVerify env1 id = Server.getVerify env2 id
    ∧ VerifyJs.verifyVideo env1 id = VerifyJs.verifyVideo env2 id
    ∧ VerifyVideoJs.verifyVideo env1 id = VerifyVideoJs.verifyVideo env2 id
    ∧ (∀ b1 b2 : Bytes, b1 = b2 → sha256hex b1 = sha256hex b2)
    ∧ (∀ c ∈ (Server.getVerify env1 id).calls,
        c = .download (id ++ ".mp4") ∨ c = .getVideo id)
    ∧ storeAfter put create st (Server.getVerify env1 id).calls = st
    ∧ ledgerAfter write l (Server.getVerify env1 id).calls = l := by
  refine ⟨?_, ?_, ?_, fun _ _ h => by rw [h], ?_, ?_, ?_⟩
  · simp only [Server.getVerify, hstore, hledger]
  · simp only [VerifyJs.verifyVideo, hstore, hledger]
  · simp only [VerifyVideoJs.verifyVideo, hstore, hledger]
  · intro c hc
    rcases getVerify_calls env1 id with h | h <;> rw [h] at hc <;> simp at hc <;> tauto
  · rcases getVerify_calls env1 id with h | h <;> rw [h] <;> rfl
  · rcases getVerify_calls env1 id with h | h <;> rw [h] <;> rfl

theorem remote_verify_is_pure_witness :
    happyEnv.download (sampleId ++ ".mp4") = unlinkFailsEnv.download (sampleId ++ ".mp4")
    ∧ Server.getVerify happyEnv sampleId = Server.getVerify unlinkFailsEnv sampleId
    ∧ storeAfter (fun (s : List (String × Bytes)) key body _ => s ++ [(key, body)])
        (fun s _ => s) [] (Server.getVerify happyEnv sampleId).calls = []
    ∧ ledgerAfter (fun (l : List (String × String)) i hash => l ++ [(i, hash)]) []
        (Server.getVerify happyEnv sampleId).calls = [] :=
  have t := remote_verify_is_pure
    (fun (s : List (String × Bytes)) key body _ => s ++ [(key, body)]) (fun s _ => s)
    (fun (l : List (String × String)) i hash => l ++ [(i, hash)]) [] []
    happyEnv unlinkFailsEnv sampleId rfl rfl
  ⟨rfl, t.1, t.2.2.2.2.2.1, t.2.2.2.2.2.2⟩

/-- C15, as stated, fails: the store upload and the ledger write both succeed, the handler
calls `fs.unlinkSync` on the temp file, the call throws, and the temp file is not deleted. -/
theorem both_writes_succeed_temp_file_stays :
    (unlinkFailsEnv.upload (unlinkFailsEnv.randomUUID ++ ".mp4") abc "video/mp4").error = none
    ∧ (∃ tx, unlinkFailsEnv.registerVideo unlinkFailsEnv.randomUUID (sha256hex abc) = .ok tx
        ∧ unlinkFailsEnv.wait tx = .ok ())
    ∧ Call.registerVideo unlinkFailsEnv.randomUUID (sha256hex abc)
        ∈ (Server.postUpload unlinkFailsEnv (some sampleFile)).calls
    ∧ unlinkFailsEnv.unlinkSync sampleFile.path
        = .error "EPERM: operation not permitted, unlink"
    ∧ removed unlinkFailsEnv (Server.postUpload unlinkFailsEnv (some sampleFile)).calls
        sampleFile.path = false := by
  refine ⟨rfl, ⟨_, rfl, rfl⟩, ?_, rfl, ?_⟩
  · simp [Server.postUpload, unlinkFailsEnv, happyEnv]
  · simp [removed, unlinkFailsEnv]

/-- C15, amended. Temp-file cleanup in `POST /upload`: the handler calls
`fs.unlinkSync(req.file.path)` if and only if the read of the file, the store upload,
`registerVideo` and `tx.wait` all succeeded, and it calls it on nothing else; so the temp
file is deleted if and only if they all succeeded and that call itself does not throw. On
the store-failure path (500 "Error uploading video to Supabase") and on every path where
the ledger write throws it answers with status 500 and makes no `unlinkSync` call, so the
temp file stays. Its only store operation is the upload under `<id>.mp4`: the stored blob
is never deleted. -/
theorem temp_file_cleanup (env : Env) (file : Option UploadedFile) :
    (∀ f, file = some f →
      (removed env (Server.postUpload env file).calls f.path = true
        ↔ ∃ buf tx, env.readFileSync f.path = .ok buf
            ∧ (env.upload (env.randomUUID ++ ".mp4") buf "video/mp4").error = none
            ∧ env.registerVideo env.randomUUID (sha256hex buf) = .ok tx
            ∧ env.wait tx = .ok () ∧ env.unlinkSync f.path = .ok ()))
    ∧ ((∃ p, Call.unlinkSync p ∈ (Server.postUpload env file).calls)
      ↔ ∃ f buf tx, file = some f ∧ env.readFileSync f.path = .ok buf
          ∧ (env.upload (env.randomUUID ++ ".mp4") buf "video/mp4").error = none
          ∧ env.registerVideo env.randomUUID (sha256hex buf) = .ok tx
          ∧ env.wait tx = .ok ())
    ∧ (∀ p, Call.unlinkSync p ∈ (Server.postUpload env file).calls →
        ∃ f, file = some f ∧ p = f.path)
    ∧ (∀ f buf, file = some f → env.readFileSync f.path = .ok buf →
        (env.upload (env.randomUUID ++ ".mp4") buf "video/mp4").error ≠ none →
        (Server.postUpload env file).result
          = ⟨500, [("error", .str "Error uploading video to Supabase")]⟩
        ∧ (∀ p, Call.unlinkSync p ∉ (Server.postUpload env file).calls)
        ∧ removed env (Server.postUpload env file).calls f.path = false)
    ∧ (∀ f buf msg, file = some f → env.readFileSync f.path = .ok buf →
        (env.upload (env.randomUUID ++ ".mp4") buf "video/mp4").error = none →
        (env.registerVideo env.randomUUID (sha256hex buf) = .error msg
          ∨ ∃ tx, env.registerVideo env.randomUUID (sha256hex buf) = .ok tx
              ∧ env.wait tx = .error msg) →
        (Server.postUpload env file).result.status = 500
        ∧ (∀ p, Call.unlinkSync p ∉ (Server.postUpload env file).calls)
        ∧ removed env (Server.postUpload env file).calls f.path = false)
    ∧ (∀ c ∈ (Server.postUpload env file).calls, c.isStore = true →
        ∃ buf, c = .upload (env.randomUUID ++ ".mp4") buf "video/mp4") := by
  have h125 : ((∃ p, Call.unlinkSync p ∈ (Server.postUpload env file).calls)
      ↔ ∃ f buf tx, file = some f ∧ env.readFileSync f.path = .ok buf
          ∧ (env.upload (env.randomUUID ++ ".mp4") buf "video/mp4").error = none
          ∧ env.registerVideo env.randomUUID (sha256hex buf) = .ok tx
          ∧ env.wait tx = .ok ())
      ∧ (∀ p, Call.unlinkSync p ∈ (Server.postUpload env file).calls →
          ∃ f, file = some f ∧ p = f.path)
      ∧ (∀ c ∈ (Server.postUpload env file).calls, c.isStore = true →
          ∃ buf, c = .upload (env.randomUUID ++ ".mp4") buf "video/mp4") := by
    cases file with
    | none => simp [Server.postUpload]
    | some f =>
      cases hread : env.readFileSync f.path with
      | error msg => simp [Server.postUpload, hread, Call.isStore]
      | ok buf =>
        cases hup : (env.upload (env.randomUUID ++ ".mp4") buf "video/mp4").error with
        | some e => simp [Server.postUpload, hread, hup, Call.isStore]
        | none =>
          cases hreg : env.registerVideo env.randomUUID (sha256hex buf) with
          | error msg => simp [Server.postUpload, hread, hup, hreg, Call.isStore]
          | ok tx =>
            cases hwait : env.wait tx with
            | error msg => simp [Server.postUpload, hread, hup, hreg, hwait, Call.isStore]
            | ok u =>
              cases hunlink : env.unlinkSync f.path with
              | error msg =>
                simp [Server.postUpload, hread, hup, hreg, hwait, hunlink, Call.isStore]
              | ok v =>
                simp [Server.postUpload, hread, hup, hreg, hwait, hunlink, Call.isStore]
  refine ⟨?_, h125.1, h125.2.1, ?_, ?_, h125.2.2⟩
  · intro f hf
    subst hf
    cases hread : env.readFileSync f.path with
    | error msg => simp [removed, Server.postUpload, hread]
    | ok buf =>
      cases hup : (env.upload (env.randomUUID ++ ".mp4") buf "video/mp4").error with
      | some e => simp [removed, Server.postUpload, hread, hup]
      | none =>
        cases hreg : env.registerVideo env.randomUUID (sha256hex buf) with
        | error msg => simp [removed, Server.postUpload, hread, hup, hreg]
        | ok tx =>
          cases hwait : env.wait tx with
          | error msg => simp [removed, Server.postUpload, hread, hup, hreg, hwait]
          | ok u =>
            cases hunlink : env.unlinkSync f.path with
            | error msg => simp [removed, Server.postUpload, hread, hup, hreg, hwait, hunlink]
            | ok v => simp [removed, Server.postUpload, hread, hup, hreg, hwait, hunlink]
  · intro f buf hf hread hup
    subst hf
    cases herr : (env.upload (env.randomUUID ++ ".mp4") buf "video/mp4").error with
    | none => exact absurd herr hup
    | some e => simp [removed, Server.postUpload, hread, herr]
  · intro f buf msg hf hread hup hl
    subst hf
    rcases hl with hreg | ⟨tx, hreg, hwait⟩
    · simp [removed, Server.postUpload, hread, hup, hreg]
    · simp [removed, Server.postUpload, hread, hup, hreg, hwait]

theorem temp_file_cleanup_witness :
    removed happyEnv (Server.postUpload happyEnv (some sampleFile)).calls sampleFile.path = true
    ∧ (Server.postUpload storeDownEnv (some sampleFile)).result
        = ⟨500, [("error", .str "Error uploading video to Supabase")]⟩
    ∧ (∀ p, Call.unlinkSync p ∉ (Server.postUpload storeDownEnv (some sampleFile)).calls)
    ∧ removed storeDownEnv (Server.postUpload storeDownEnv (some sampleFile)).calls
        sampleFile.path = false :=
  ⟨((temp_file_cleanup happyEnv (some sampleFile)).1 sampleFile rfl).mpr
      ⟨abc, _, rfl, rfl, rfl, rfl, rfl⟩,
    (temp_file_cleanup storeDownEnv (some sampleFile)).2.2.2.1 sampleFile abc rfl rfl
      (by simp [storeDownEnv])⟩

/-- C16. The duplicated verify implementations agree: for every id and every answer of the
store and of the ledger, `GET /verify/:videoId`, `verify.js` and `verify-video.js` fall
into the same outcome class, which is one of content not found (the download fails), ledger
record not found (`contract.getVideo` throws), authentic and tampered; when a verdict is
reached they carry the same `currentHash` and `storedHash` (returned by the server and by
`verify-video.js`, printed by `verify.js`); and `verifyLocalVideo`, given a file whose bytes
are the stored content, falls into the same class and prints the same hashes. -/
theorem verify_implementations_agree (env : Env) (id filePath : String) :
    CliRun.outcomeClass (fun e : Empty => e.elim) (VerifyJs.verifyVideo env id)
      = Server.outcomeClass (Server.getVerify env id).result
    ∧ CliRun.outcomeClass VerifyResult.valid (VerifyVideoJs.verifyVideo env id)
      = Server.outcomeClass (Server.getVerify env id).result
    ∧ Server.outcomeClass (Server.getVerify env id).result ≠ .failure
    ∧ (Server.outcomeClass (Server.getVerify env id).result = .contentNotFound
        ↔ ((env.download (id ++ ".mp4")).error ≠ none ∨ (env.download (id ++ ".mp4")).data = none))
    ∧ (Server.outcomeClass (Server.getVerify env id).result = .ledgerRecordNotFound
        ↔ ∃ b msg, env.download (id ++ ".mp4") = ⟨some b, none⟩ ∧ env.getVideo id = .error msg)
    ∧ (Server.outcomeClass (Server.getVerify env id).result = .authentic
        ↔ ∃ b t, env.download (id ++ ".mp4") = ⟨some b, none⟩
            ∧ env.getVideo id = .ok (sha256hex b, t))
    ∧ (Server.outcomeClass (Server.getVerify env id).result = .tampered
        ↔ ∃ b s t, env.download (id ++ ".mp4") = ⟨some b, none⟩
            ∧ env.getVideo id = .ok (s, t) ∧ sha256hex b ≠ s)
    ∧ (∀ c s, (Server.getVerify env id).result.body.get "currentHash" = some (.str c) →
        (Server.getVerify env id).result.body.get "storedHash" = some (.str s) →
        (∃ r, (VerifyVideoJs.verifyVideo env id).outcome = .returned r
          ∧ r.currentHash = c ∧ r.storedHash = s)
        ∧ (VerifyJs.hashLog env id).take 2 = ["   Current hash: " ++ c, "   Stored hash: " ++ s])
    ∧ (∀ b, env.download (id ++ ".mp4") = ⟨some b, none⟩ → env.readFileSync filePath = .ok b →
        CliRun.outcomeClass (fun e : Empty => e.elim)
            (VerifyLocalJs.verifyLocalVideo env filePath id)
          = Server.outcomeClass (Server.getVerify env id).result
        ∧ VerifyLocalJs.hashLog env filePath id = VerifyJs.hashLog env id) := by
  rcases hdl : env.download (id ++ ".mp4") with ⟨data, error⟩
  have hlocal : ∀ b, env.download (id ++ ".mp4") = ⟨some b, none⟩ →
      env.readFileSync filePath = .ok b →
      CliRun.outcomeClass (fun e : Empty => e.elim)
          (VerifyLocalJs.verifyLocalVideo env filePath id)
        = Server.outcomeClass (Server.getVerify env id).result
      ∧ VerifyLocalJs.hashLog env filePath id = VerifyJs.hashLog env id := by
    intro b hb hread
    cases hg : env.getVideo id with
    | error msg =>
      simp [VerifyLocalJs.verifyLocalVideo, VerifyLocalJs.hashLog, VerifyJs.hashLog,
        Server.getVerify, Server.outcomeClass, CliRun.outcomeClass, hb, hread, hg, Json.get,
        List.lookup]
    | ok rec =>
      obtain ⟨s, t⟩ := rec
      by_cases h : sha256hex b = s <;>
        simp [VerifyLocalJs.verifyLocalVideo, VerifyLocalJs.hashLog, VerifyJs.hashLog,
          Server.getVerify, Server.outcomeClass, CliRun.outcomeClass, hb, hread, hg, h, Json.get,
          List.lookup]
  rw [hdl] at hlocal
  refine ⟨?_, ?_, ?_, ?_, ?_, ?_, ?_, ?_, hlocal⟩ <;> clear hlocal
  all_goals
    cases data with
    | none =>
      cases error <;>
        simp [VerifyJs.verifyVideo, VerifyVideoJs.verifyVideo, VerifyJs.hashLog,
          Server.getVerify, Server.outcomeClass, CliRun.outcomeClass, hdl, Json.get, List.lookup]
    | some b =>
      cases error with
      | some e =>
        simp [VerifyJs.verifyVideo, VerifyVideoJs.verifyVideo, VerifyJs.hashLog,
          Server.getVerify, Server.outcomeClass, CliRun.outcomeClass, hdl, Json.get, List.lookup]
      | none =>
        cases hg : env.getVideo id with
        | error msg =>
          simp [VerifyJs.verifyVideo, VerifyVideoJs.verifyVideo, VerifyJs.hashLog,
            Server.getVerify, Server.outcomeClass, CliRun.outcomeClass, hdl, hg, Json.get,
            List.lookup]
        | ok rec =>
          obtain ⟨s, t⟩ := rec
          by_cases h : sha256hex b = s
          · simp [VerifyJs.verifyVideo, VerifyVideoJs.verifyVideo, VerifyJs.hashLog,
              Server.getVerify, Server.outcomeClass, CliRun.outcomeClass, hdl, hg, h, Json.get,
              List.lookup]
          · simp [VerifyJs.verifyVideo, VerifyVideoJs.verifyVideo, VerifyJs.hashLog,
              Server.getVerify, Server.outcomeClass, CliRun.outcomeClass, hdl, hg, h, Json.get,
              List.lookup] <;> exact fun e => h e.symm

theorem verify_implementations_agree_witness :
    tamperedEnv.download (sampleId ++ ".mp4") = ⟨some abd, none⟩
    ∧ Server.outcomeClass (Server.getVerify tamperedEnv sampleId).result = .tampered
    ∧ CliRun.outcomeClass (fun e : Empty => e.elim) (VerifyJs.verifyVideo tamperedEnv sampleId)
        = Server.outcomeClass (Server.getVerify tamperedEnv sampleId).result :=
  have t := verify_implementations_agree tamperedEnv sampleId "./video/test.mp4"
  ⟨rfl, t.2.2.2.2.2.2.1.mpr
      ⟨abd, "ba7816bf8f01cfea414140de5dae2223b00361a396177a9cb410ff61f20015ad", 1700000000,
        rfl, rfl, by rw [sha256hex_abd]; decide⟩,
    t.1⟩

end VideoIntegrity
